import Mathlib

/-!
Shallow embedding of the agent-senate experiment engine.

The embedding follows the TypeScript source: the experiment coordinator
(runExperiment, runConditionsSequentially, runConditionsInParallel,
blindAndShuffle, buildFailedConditionResult), the debate engine (runDebate
and its prompt builders), and the Gemini adapter
(callGeminiWithFallbackAndRetries, computeRetryDelay, extractRetryDelayMs,
enqueueGeminiWork).

Modelling conventions:
- Backend HTTP calls (callLlm / callGeminiSingle) are replaced by explicit
  oracle functions supplied as parameters; a deterministic oracle models one
  fixed behaviour of the external services.
- Thrown JavaScript exceptions become Except values; the coordinator-level
  error type records the message of a thrown Error, with a separate
  constructor for thrown non-Error values.
- Environment-derived constants become fields of explicit config structures
  whose defaults are the source defaults.
- Math.random draws of the Fisher-Yates shuffle are explicit inputs, one
  drawn index per loop step.
- setTimeout sleeps and fetch calls of the Gemini adapter are recorded in an
  explicit event trace so that retry scheduling is observable.
-/

deriving instance DecidableEq for Except

namespace AgentSenate

/-! ## Data model (lib/types.ts) -/

inductive ProviderName
  | openai
  | anthropic
  | gemini
  | xai
  deriving DecidableEq, Repr

inductive ChatRole
  | system
  | user
  | assistant
  deriving DecidableEq, Repr

structure ChatMessage where
  role : ChatRole
  content : String
  deriving DecidableEq, Repr

structure LlmCallInput where
  provider : ProviderName
  model : String
  messages : List ChatMessage
  temperature : Option Rat
  maxTokens : Option Nat
  deriving DecidableEq, Repr

structure DebateAgent where
  id : String
  name : String
  provider : ProviderName
  model : String
  persona : String
  isModerator : Bool := false
  deriving DecidableEq, Repr

structure DebateTurn where
  round : Nat
  agentId : String
  agentName : String
  provider : ProviderName
  model : String
  content : String
  deriving DecidableEq, Repr

inductive ExperimentConditionId
  | single_plain
  | single_role
  | multi_mixed_models
  | multi_same_model_roles
  deriving DecidableEq, Repr

structure ConditionResult where
  conditionId : ExperimentConditionId
  conditionLabel : String
  answer : String
  transcript : List DebateTurn
  deriving DecidableEq, Repr

structure BlindedResponse where
  blindId : String
  answer : String
  sourceConditionId : ExperimentConditionId
  sourceConditionLabel : String
  transcript : List DebateTurn
  deriving DecidableEq, Repr

structure ExperimentApiResponse where
  runId : String
  createdAt : String
  question : String
  responses : List BlindedResponse
  deriving DecidableEq, Repr

/-- A condition pipeline failure: either a thrown JavaScript Error carrying a
message, or a thrown non-Error value. -/
inductive RunError
  | jsError (message : String)
  | nonErrorThrown
  deriving DecidableEq, Repr

/-- The message extraction used by buildFailedConditionResult:
reason instanceof Error gives reason.message, anything else the fixed
fallback text. -/
def errorMessageOf : RunError → String
  | .jsError m => m
  | .nonErrorThrown => "Unknown failure"

/-- Oracle modelling callLlm: a deterministic view of one behaviour of the
external backends, mapping a call input to either a returned text or a
thrown failure. -/
abbrev Oracle := LlmCallInput → Except RunError String

/-! ## JavaScript Map as an association list

The debate engine keeps per-agent conversation histories in a Map keyed by
agent id; insertion updates in place when the key exists and appends
otherwise, and lookup returns the first (unique) binding. -/

def mapGet {α : Type} (m : List (String × α)) (k : String) : Option α :=
  (m.find? (fun p => p.1 = k)).map (fun p => p.2)

def mapSet {α : Type} (m : List (String × α)) (k : String) (v : α) : List (String × α) :=
  if m.any (fun p => p.1 = k) then
    m.map (fun p => if p.1 = k then (k, v) else p)
  else
    m ++ [(k, v)]

/-! ## Fisher-Yates shuffle with explicit draws (blindAndShuffle) -/

/-- One destructuring swap step:
the bracket assignment writes the old value at j into slot i and the old
value at i into slot j. Out-of-range indices never occur in the source
(Math.random is below 1), so that case leaves the list unchanged. -/
def listSwap {α : Type} (l : List α) (i j : Nat) : List α :=
  match l.get? i, l.get? j with
  | some a, some b => (l.set i b).set j a
  | _, _ => l

/-- The descending shuffle loop: for index = n-1 down to 1, swap position
index with the drawn position. The draw list supplies one Math.random result
(already scaled and floored) per step, first element first. -/
def fyLoop {α : Type} : Nat → List Nat → List α → List α
  | 0, _, l => l
  | _ + 1, [], l => l
  | i + 1, d :: ds, l => fyLoop i ds (listSwap l (i + 1) d)

/-- Validity of a draw list for a loop starting at the given index: one draw
per step, each draw d for index i satisfying d = floor(r * (i+1)) with
0 <= r < 1, hence d <= i. -/
def drawsValidB : Nat → List Nat → Bool
  | 0, ds => ds.isEmpty
  | _ + 1, [] => false
  | i + 1, d :: ds => decide (d ≤ i + 1) && drawsValidB i ds

def blindLabels : List String :=
  ["Response A", "Response B", "Response C", "Response D"]

/-- blindAndShuffle: copy the results, run the in-place Fisher-Yates loop,
then label the shuffled positions sequentially, falling back to a generated
label beyond the fixed four. -/
def blindAndShuffle (draws : List Nat) (results : List ConditionResult) :
    List BlindedResponse :=
  let shuffled := fyLoop (results.length - 1) draws results
  shuffled.enum.map (fun p =>
    { blindId := (blindLabels.get? p.1).getD ("Response " ++ toString (p.1 + 1))
      answer := p.2.answer
      sourceConditionId := p.2.conditionId
      sourceConditionLabel := p.2.conditionLabel
      transcript := p.2.transcript })

/-! ## Debate engine (runDebate and prompt builders) -/

def maxSingleResponseTokens : Nat := 1000

def coreSingleInstructions : String :=
  String.intercalate " "
    ["You are helping evaluate answer quality for a capstone project.",
     "Provide a direct answer first, then concise justification.",
     "If uncertain, clearly state uncertainty instead of over-claiming.",
     "Keep the response under 220 words."]

def roleBasedSingleInstructions : String :=
  String.intercalate " "
    ["You are a methodical evaluator with expertise in critical reasoning.",
     "Explain the answer as if your work will be audited for correctness.",
     "Include one brief caveat if there is meaningful uncertainty.",
     "Keep the response under 240 words."]

/-- The trimmed debate system template, with the persona placeholder. -/
def debateSystemTemplate : String :=
  String.intercalate "\n"
    ["You are participating in a structured multi-agent debate to find the best possible answer.",
     "Persona: {PERSONA}",
     "",
     "Rules:",
     "1) Prioritize correctness over persuasion.",
     "2) Challenge weak reasoning from peers and concede when another argument is stronger.",
     "3) Be specific and concrete; do not use filler.",
     "4) Keep each round response under 200 words.",
     "",
     "Round 1 goal: propose an initial answer and your reasoning.",
     "Round 2+ goal: evaluate peers, refine your position, and ask targeted questions.",
     "Final goal: support a single best answer, with uncertainty explicitly noted when needed."]

/-- Persona interpolation: the template contains the placeholder exactly
once, so the replace-first of the source equals replace-all here. -/
def interpolatePersona (persona : String) : String :=
  debateSystemTemplate.replace "{PERSONA}" persona

/-- clampText: character-level view of the code-unit slice of the source. -/
def clampText (input : String) (maxChars : Nat) : String :=
  if input.length ≤ maxChars then input
  else input.take (maxChars - 3) ++ "..."

/-- One peer line of the peer-context block (the mapped lambda inside
formatPeerContext). -/
def peerEntry (turn : DebateTurn) : String :=
  "- " ++ turn.agentName ++ ": " ++ clampText turn.content 280

def formatPeerContext (turns : List DebateTurn) (selfAgentId : String) : String :=
  let peers := turns.filter (fun turn => turn.agentId ≠ selfAgentId)
  if peers.isEmpty then "- No prior peer statements available."
  else String.intercalate "\n" (peers.map peerEntry)

structure RoundPromptInput where
  question : String
  round : Nat
  totalRounds : Nat
  agent : DebateAgent
  previousRoundTurns : List DebateTurn

def buildRoundPrompt (input : RoundPromptInput) : String :=
  let header := String.intercalate "\n"
    ["Question: " ++ input.question,
     "Round " ++ toString input.round ++ " of " ++ toString input.totalRounds]
  if input.round = 1 then
    String.intercalate "\n"
      [header,
       "",
       "Task:",
       "- Provide your initial best answer.",
       "- Explain your strongest reasoning in 3-5 concise bullets.",
       "- End with confidence score from 0-100.",
       "",
       "Format:",
       "Answer:",
       "Reasoning:",
       "Questions for peers:",
       "Confidence:"]
  else
    let peerContext := formatPeerContext input.previousRoundTurns input.agent.id
    String.intercalate "\n"
      [header,
       "",
       "Peer updates from the previous round:",
       peerContext,
       "",
       "Task:",
       "- Critique at least one peer claim.",
       "- Defend your current answer or concede to a stronger answer.",
       "- Ask up to 2 pointed questions only if needed.",
       "- End with an updated confidence score from 0-100.",
       "",
       "Format:",
       "Current answer:",
       "Why this is stronger (or concession):",
       "Questions for peers:",
       "Confidence:"]

def buildModeratorPrompt (question : String) (transcript : List DebateTurn)
    (rounds : Nat) : String :=
  let condensedTranscript := String.intercalate "\n\n"
    ((transcript.filter (fun turn => turn.round ≤ rounds)).map (fun turn =>
      "Round " ++ toString turn.round ++ " - " ++ turn.agentName ++ ": " ++
        clampText turn.content 360))
  String.intercalate "\n"
    ["Question: " ++ question,
     "",
     "You are the moderator. Synthesize the debate into one final answer.",
     "Use the transcript below. If no full consensus exists, still provide the single best answer and mention unresolved disagreement briefly.",
     "",
     "Return exactly this structure:",
     "Final answer:",
     "Why this answer wins:",
     "Remaining uncertainty:",
     "Final confidence (0-100):",
     "",
     "Transcript:",
     condensedTranscript]

structure DebateRunResult where
  answer : String
  transcript : List DebateTurn
  deriving DecidableEq, Repr

structure DebateInput where
  question : String
  agents : List DebateAgent
  rounds : Nat
  deriving DecidableEq, Repr

/-- Mutable state of one debate run: the per-agent history map and the
run-scoped transcript. -/
structure DebateState where
  histories : List (String × List ChatMessage)
  transcript : List DebateTurn

def mkDebateTurn (round : Nat) (agent : DebateAgent) (content : String) :
    DebateTurn :=
  { round := round
    agentId := agent.id
    agentName := agent.name
    provider := agent.provider
    model := agent.model
    content := content }

/-- The body of the inner for-of loop over agents within one round: build the
round prompt from the previous-round turns, push it onto the acting agent
history as a user message, call the backend on that history, push the reply
as an assistant message, and record the contribution. The two pushes are
merged into one map update, which is observationally equal because the only
read between them is the backend call on the prompt-extended history. -/
def agentsFold (oracle : Oracle) (maxDebateTokens : Nat) (question : String)
    (totalRounds round : Nat) (previousRoundTurns : List DebateTurn) :
    List DebateAgent → List (String × List ChatMessage) → List DebateTurn →
    Except RunError (List (String × List ChatMessage) × List DebateTurn)
  | [], h, contributions => .ok (h, contributions)
  | agent :: rest, h, contributions =>
    let roundPrompt := buildRoundPrompt
      { question := question
        round := round
        totalRounds := totalRounds
        agent := agent
        previousRoundTurns := previousRoundTurns }
    match mapGet h agent.id with
    | none => .error (.jsError ("Missing chat history for agent " ++ agent.id))
    | some history =>
      let history1 := history ++ [{ role := .user, content := roundPrompt }]
      match oracle
        { provider := agent.provider
          model := agent.model
          messages := history1
          temperature := some (0.5 : Rat)
          maxTokens := some maxDebateTokens } with
      | .error e => .error e
      | .ok content =>
        agentsFold oracle maxDebateTokens question totalRounds round
          previousRoundTurns rest
          (mapSet h agent.id
            (history1 ++ [{ role := .assistant, content := content }]))
          (contributions ++ [mkDebateTurn round agent content])

/-- One iteration of the outer round loop: previous-round turns are read off
the transcript once at round start, contributions are collected and appended
to the transcript at round end. -/
def runRound (oracle : Oracle) (maxDebateTokens : Nat) (question : String)
    (totalRounds : Nat) (agents : List DebateAgent) (round : Nat)
    (st : DebateState) : Except RunError DebateState :=
  let previousRoundTurns := st.transcript.filter (fun turn => turn.round = round - 1)
  match agentsFold oracle maxDebateTokens question totalRounds round
      previousRoundTurns agents st.histories [] with
  | .error e => .error e
  | .ok (h, contributions) => .ok ⟨h, st.transcript ++ contributions⟩

/-- The outer loop over rounds 1..totalRounds. -/
def runRounds (oracle : Oracle) (maxDebateTokens : Nat) (question : String)
    (totalRounds : Nat) (agents : List DebateAgent) :
    List Nat → DebateState → Except RunError DebateState
  | [], st => .ok st
  | round :: rest, st =>
    match runRound oracle maxDebateTokens question totalRounds agents round st with
    | .error e => .error e
    | .ok st1 => runRounds oracle maxDebateTokens question totalRounds agents rest st1

/-- Initial histories: each agent id seeded with the persona-interpolated
system message, in agent order. -/
def initialHistories (agents : List DebateAgent) :
    List (String × List ChatMessage) :=
  agents.foldl
    (fun m agent =>
      mapSet m agent.id
        [{ role := .system, content := interpolatePersona agent.persona }])
    []

/-- runDebate: seed histories, run the round loop, then the moderator
synthesis call. An empty roster makes the source dereference an undefined
moderator, modelled as the thrown TypeError; the rounds loop makes no
backend call in that case, so raising it up front is observationally equal. -/
def runDebate (oracle : Oracle) (maxDebateTokens : Nat) (input : DebateInput) :
    Except RunError DebateRunResult :=
  match input.agents with
  | [] => .error (.jsError "Cannot read properties of undefined")
  | a0 :: _ =>
    match runRounds oracle maxDebateTokens input.question input.rounds
        input.agents (List.range' 1 input.rounds) ⟨initialHistories input.agents, []⟩ with
    | .error e => .error e
    | .ok st =>
      let moderator := (input.agents.find? (fun agent => agent.isModerator)).getD a0
      match mapGet st.histories moderator.id with
      | none => .error (.jsError ("Missing moderator history for agent " ++ moderator.id))
      | some moderatorHistory =>
        let moderatorHistory1 := moderatorHistory ++
          [{ role := .user
             content := buildModeratorPrompt input.question st.transcript input.rounds }]
        match oracle
          { provider := moderator.provider
            model := moderator.model
            messages := moderatorHistory1
            temperature := some (0.2 : Rat)
            maxTokens := some 950 } with
        | .error e => .error e
        | .ok finalAnswer =>
          .ok
            { answer := finalAnswer
              transcript := st.transcript ++
                [{ round := input.rounds + 1
                   agentId := moderator.id
                   agentName := moderator.name ++ " (Final Synthesis)"
                   provider := moderator.provider
                   model := moderator.model
                   content := finalAnswer }] }

/-! ## Condition runners and experiment coordinator -/

structure SingleConditionInput where
  conditionId : ExperimentConditionId
  conditionLabel : String
  question : String
  systemPrompt : String
  provider : ProviderName
  model : String

def runSingleCondition (oracle : Oracle) (input : SingleConditionInput) :
    Except RunError ConditionResult :=
  let messages : List ChatMessage :=
    [{ role := .system, content := input.systemPrompt },
     { role := .user, content := "Question: " ++ input.question }]
  match oracle
    { provider := input.provider
      model := input.model
      messages := messages
      temperature := some (0.2 : Rat)
      maxTokens := some maxSingleResponseTokens } with
  | .error e => .error e
  | .ok answer =>
    .ok
      { conditionId := input.conditionId
        conditionLabel := input.conditionLabel
        answer := answer
        transcript :=
          [{ round := 1
             agentId := "single"
             agentName := "Single Model"
             provider := input.provider
             model := input.model
             content := answer }] }

structure DebateConditionInput where
  conditionId : ExperimentConditionId
  conditionLabel : String
  question : String
  agents : List DebateAgent
  rounds : Int

/-- runDebateCondition clamps the configured round count with
Math.max(1, rounds) before delegating to runDebate; the clamped value is at
least 1, so the Int to Nat conversion is exact. -/
def runDebateCondition (oracle : Oracle) (maxDebateTokens : Nat)
    (input : DebateConditionInput) : Except RunError ConditionResult :=
  match runDebate oracle maxDebateTokens
      { question := input.question
        agents := input.agents
        rounds := (max 1 input.rounds).toNat } with
  | .error e => .error e
  | .ok debate =>
    .ok
      { conditionId := input.conditionId
        conditionLabel := input.conditionLabel
        answer := debate.answer
        transcript := debate.transcript }

structure ModelCatalog where
  openai : String := "gpt-4.1-mini"
  anthropic : String := "claude-3-7-sonnet-latest"
  gemini : String := "gemini-2.5-flash"
  xai : String := "grok-2-latest"
  deriving DecidableEq, Repr

/-- Environment-derived coordinator configuration with the source defaults. -/
structure Config where
  maxDebateResponseTokens : Nat := 450
  defaultDebateRounds : Int := 2
  forceGeminiOnly : Bool := true
  serializeConditions : Bool := true
  deriving DecidableEq, Repr

structure ConditionLabels where
  single_plain : String
  multi_mixed_models : String
  multi_same_model_roles : String
  single_role : String

def getConditionLabels (forceGeminiOnly : Bool) : ConditionLabels :=
  if forceGeminiOnly then
    { single_plain := "Single Gemini (first attempt)"
      multi_mixed_models := "4-agent debate (Gemini-backed stand-ins)"
      multi_same_model_roles := "4 Gemini agents with distinct roles"
      single_role := "Single Gemini with role prompt" }
  else
    { single_plain := "Single ChatGPT (first attempt)"
      multi_mixed_models := "4-model debate (ChatGPT + Claude + Gemini + Grok)"
      multi_same_model_roles := "4 ChatGPT agents with distinct roles"
      single_role := "Single ChatGPT with role prompt" }

def buildGeminiBackedMixedAgents (geminiModel : String) : List DebateAgent :=
  [{ id := "chatgpt_slot"
     name := "ChatGPT Slot (Gemini backend)"
     provider := .gemini
     model := geminiModel
     persona := "Debate moderator focused on extracting the strongest shared answer. Push peers to justify claims and integrate valid objections."
     isModerator := true },
   { id := "claude_slot"
     name := "Claude Slot (Gemini backend)"
     provider := .gemini
     model := geminiModel
     persona := "Careful reasoner. Stress-test assumptions, clarify ambiguity, and highlight hidden edge cases before accepting a conclusion." },
   { id := "gemini_slot"
     name := "Gemini Slot"
     provider := .gemini
     model := geminiModel
     persona := "Evidence-oriented analyst. Prefer verifiable facts, explicit logic steps, and concise error bounds or caveats." },
   { id := "grok_slot"
     name := "Grok Slot (Gemini backend)"
     provider := .gemini
     model := geminiModel
     persona := "Constructive challenger. Attack weak arguments and propose alternative hypotheses until they are disproven." }]

def buildMixedModelAgents (models : ModelCatalog) (forceGeminiOnly : Bool) :
    List DebateAgent :=
  if forceGeminiOnly then buildGeminiBackedMixedAgents models.gemini
  else
    [{ id := "chatgpt_moderator"
       name := "ChatGPT Moderator"
       provider := .openai
       model := models.openai
       persona := "Debate moderator focused on extracting the strongest shared answer. Push peers to justify claims and integrate valid objections."
       isModerator := true },
     { id := "claude_reasoner"
       name := "Claude"
       provider := .anthropic
       model := models.anthropic
       persona := "Careful reasoner. Stress-test assumptions, clarify ambiguity, and highlight hidden edge cases before accepting a conclusion." },
     { id := "gemini_evidence"
       name := "Gemini"
       provider := .gemini
       model := models.gemini
       persona := "Evidence-oriented analyst. Prefer verifiable facts, explicit logic steps, and concise error bounds or caveats." },
     { id := "grok_challenger"
       name := "Grok"
       provider := .xai
       model := models.xai
       persona := "Constructive challenger. Attack weak arguments and propose alternative hypotheses until they are disproven." }]

def buildSameModelRoleAgents (provider : ProviderName) (model : String) :
    List DebateAgent :=
  [{ id := "lead_moderator"
     name := "Lead Moderator"
     provider := provider
     model := model
     persona := "Lead moderator responsible for convergence. Keep the team focused, call out contradictions, and synthesize the strongest final answer."
     isModerator := true },
   { id := "skeptic"
     name := "Skeptic"
     provider := provider
     model := model
     persona := "Skeptical reviewer. Your role is to find mistakes, weak assumptions, and overconfidence in every claim." },
   { id := "researcher"
     name := "Researcher"
     provider := provider
     model := model
     persona := "Research-oriented analyst. Bring structured, evidence-first reasoning and compare plausible alternatives." },
   { id := "pragmatist"
     name := "Pragmatist"
     provider := provider
     model := model
     persona := "Pragmatic decision-maker. Select answers that are actionable and robust under realistic constraints." }]

/-- The positional fallback identity table of buildFailedConditionResult. -/
def fallbackMappings : List (ExperimentConditionId × String) :=
  [(.single_plain, "Single model (first attempt)"),
   (.multi_mixed_models, "4-agent mixed-model debate"),
   (.multi_same_model_roles, "4 same-model agents with distinct roles"),
   (.single_role, "Single model with role prompt")]

def buildFailedConditionResult (index : Nat) (reason : RunError) :
    ConditionResult :=
  let fallback := (fallbackMappings.get? index).getD
    (.single_plain, "Single model (first attempt)")
  { conditionId := fallback.1
    conditionLabel := fallback.2
    answer := "This condition failed to run.\n\nError: " ++ errorMessageOf reason
    transcript := [] }

/-- The four condition runner thunks of runExperiment, in source order; with
a deterministic oracle each thunk has one settled outcome. -/
def conditionRunners (cfg : Config) (models : ModelCatalog) (oracle : Oracle)
    (question : String) : List (Except RunError ConditionResult) :=
  let singleProvider : ProviderName := if cfg.forceGeminiOnly then .gemini else .openai
  let singleModel := if cfg.forceGeminiOnly then models.gemini else models.openai
  let conditionLabels := getConditionLabels cfg.forceGeminiOnly
  [runSingleCondition oracle
    { conditionId := .single_plain
      conditionLabel := conditionLabels.single_plain
      question := question
      systemPrompt := coreSingleInstructions
      provider := singleProvider
      model := singleModel },
   runDebateCondition oracle cfg.maxDebateResponseTokens
    { conditionId := .multi_mixed_models
      conditionLabel := conditionLabels.multi_mixed_models
      question := question
      agents := buildMixedModelAgents models cfg.forceGeminiOnly
      rounds := cfg.defaultDebateRounds },
   runDebateCondition oracle cfg.maxDebateResponseTokens
    { conditionId := .multi_same_model_roles
      conditionLabel := conditionLabels.multi_same_model_roles
      question := question
      agents := buildSameModelRoleAgents singleProvider singleModel
      rounds := cfg.defaultDebateRounds },
   runSingleCondition oracle
    { conditionId := .single_role
      conditionLabel := conditionLabels.single_role
      question := question
      systemPrompt := roleBasedSingleInstructions
      provider := singleProvider
      model := singleModel }]

def runConditionsSeqGo (index : Nat) :
    List (Except RunError ConditionResult) → List ConditionResult
  | [] => []
  | .ok r :: rest => r :: runConditionsSeqGo (index + 1) rest
  | .error e :: rest =>
    buildFailedConditionResult index e :: runConditionsSeqGo (index + 1) rest

/-- Serial mode: each runner outcome is awaited in order; a throw is caught
and replaced by the synthetic failure result for its slot. -/
def runConditionsSequentially (outcomes : List (Except RunError ConditionResult)) :
    List ConditionResult :=
  runConditionsSeqGo 0 outcomes

/-- Concurrent mode: Promise.allSettled preserves slot order; each settled
outcome is mapped by position. -/
def runConditionsInParallel (outcomes : List (Except RunError ConditionResult)) :
    List ConditionResult :=
  outcomes.enum.map (fun p =>
    match p.2 with
    | .ok r => r
    | .error e => buildFailedConditionResult p.1 e)

/-- runExperiment: run the four condition pipelines in the configured mode,
then blind and shuffle. The run id, creation timestamp and shuffle draws are
the ambient nondeterminism of the source, passed explicitly. -/
def runExperiment (cfg : Config) (models : ModelCatalog) (oracle : Oracle)
    (runId createdAt : String) (draws : List Nat) (question : String) :
    ExperimentApiResponse :=
  let outcomes := conditionRunners cfg models oracle question
  let conditionResults :=
    if cfg.serializeConditions then runConditionsSequentially outcomes
    else runConditionsInParallel outcomes
  { runId := runId
    createdAt := createdAt
    question := question
    responses := blindAndShuffle draws conditionResults }

/-! ## Gemini adapter (quota-aware backend adapter)

callGeminiSingle performs the HTTP call and either returns text or throws:
a structured GeminiCallError built by createGeminiError for a non-ok status,
or a plain Error (missing content, timeout, network). It is modelled by an
oracle indexed by model candidate and attempt number. -/

structure GeminiErrorDetail where
  atType : Option String := none
  retryDelay : Option String := none
  deriving DecidableEq, Repr

structure GeminiErrorBody where
  code : Option Int := none
  status : Option String := none
  message : Option String := none
  details : Option (List GeminiErrorDetail) := none
  deriving DecidableEq, Repr

structure GeminiErrorPayload where
  error : Option GeminiErrorBody := none
  deriving DecidableEq, Repr

/-- The error thrown by createGeminiError: the formatted message plus the
status, model, raw body and the parsed body (none when JSON.parse failed). -/
structure GeminiCallError where
  message : String
  status : Nat
  model : String
  bodyText : String
  bodyJson : Option GeminiErrorPayload := none
  deriving DecidableEq, Repr

/-- A value thrown inside one Gemini attempt: either the structured call
error or a plain Error (for which isGeminiCallError is false). -/
inductive GemThrow
  | callError (e : GeminiCallError)
  | plainError (msg : String)
  deriving DecidableEq, Repr

def GemThrow.message : GemThrow → String
  | .callError e => e.message
  | .plainError m => m

def isGeminiCallError : Option GemThrow → Bool
  | some (.callError _) => true
  | _ => false

def isRetryableGeminiError : Option GemThrow → Bool
  | some (.callError e) => decide (e.status = 429 ∨ 500 ≤ e.status)
  | _ => false

def isModelNotFoundError : Option GemThrow → Bool
  | some (.callError e) => decide (e.status = 404)
  | _ => false

def isQuotaError : Option GemThrow → Bool
  | some (.callError e) =>
    decide ((e.bodyJson.bind GeminiErrorPayload.error).bind GeminiErrorBody.status
        = some "RESOURCE_EXHAUSTED")
      || decide (e.status = 429)
  | _ => false

/-- Substring test (String.prototype.includes) on character lists. -/
def listContainsSublist : List Char → List Char → Bool
  | needle, [] => needle.isEmpty
  | needle, c :: rest =>
    needle.isPrefixOf (c :: rest) || listContainsSublist needle rest

def digitsToNat (cs : List Char) : Nat :=
  cs.foldl (fun acc c => acc * 10 + (c.toNat - 48)) 0

/-- Number.parseFloat on the nonnegative decimal forms RetryInfo hints take
(digits, optionally a dot and more digits, longest prefix), fused with the
conversion Math.ceil(seconds * 1000) and computed exactly in integer
arithmetic; a string without a leading digit parses to NaN, hence none. -/
def parseSecondsToMsCeil (s : String) : Option Nat :=
  let cs := s.data
  let intPart := cs.takeWhile Char.isDigit
  let rest := cs.drop intPart.length
  if intPart.isEmpty then none
  else
    match rest with
    | '.' :: rest2 =>
      let fracPart := rest2.takeWhile Char.isDigit
      let denom := 10 ^ fracPart.length
      some (digitsToNat intPart * 1000 +
        (digitsToNat fracPart * 1000 + (denom - 1)) / denom)
    | _ => some (digitsToNat intPart * 1000)

/-- Number.parseInt(s, 10) on its digit-prefix forms; no leading digit gives
NaN, hence none. -/
def jsParseIntPrefix (s : String) : Option Nat :=
  let ds := s.data.takeWhile Char.isDigit
  if ds.isEmpty then none else some (digitsToNat ds)

/-- String.prototype.trim: strip whitespace from both ends (character-list
implementation of String.trim). -/
def jsTrim (s : String) : String :=
  ⟨((s.data.dropWhile Char.isWhitespace).reverse.dropWhile Char.isWhitespace).reverse⟩

/-- extractRetryDelayMs: only a structured call error can carry a hint; find
the RetryInfo detail, read its retryDelay (the falsy check also rejects the
empty string), then parse the seconds form first and the integer
milliseconds form second. -/
def extractRetryDelayMs (error : Option GemThrow) : Option Nat :=
  match error with
  | some (.callError e) =>
    let details :=
      ((e.bodyJson.bind GeminiErrorPayload.error).bind GeminiErrorBody.details).getD []
    match details.find? (fun d =>
        listContainsSublist "RetryInfo".data (d.atType.getD "").data) with
    | none => none
    | some retryInfo =>
      match retryInfo.retryDelay with
      | none => none
      | some rdv =>
        if rdv = "" then none
        else
          let normalized := jsTrim rdv
          let viaSeconds :=
            if ("s".data).isSuffixOf normalized.data then
              parseSecondsToMsCeil (normalized.dropRight 1)
            else none
          match viaSeconds with
          | some ms => some ms
          | none => jsParseIntPrefix normalized
  | _ => none

/-- Environment-derived Gemini adapter configuration, source defaults. -/
structure GeminiConfig where
  spacingMs : Nat := 2500
  maxRetries : Nat := 2
  backoffMs : Nat := 3000
  fallbackModels : List String := []
  deriving DecidableEq, Repr

def computeRetryDelay (cfg : GeminiConfig) (error : Option GemThrow)
    (attempt : Nat) : Nat :=
  match extractRetryDelayMs error with
  | some retryHintMs => max retryHintMs cfg.spacingMs
  | none => max (cfg.backoffMs * 2 ^ (attempt - 1)) cfg.spacingMs

/-- Oracle modelling callGeminiSingle: the outcome of the fetch for a model
candidate at a given attempt number within that candidate. -/
abbrev GemOracle := String → Nat → Except GemThrow String

/-- Observable adapter events, in program order: each engineered sleep and
each fetch. -/
inductive GemEvent
  | sleepMs (ms : Nat)
  | call (model : String) (attempt : Nat)
  deriving DecidableEq, Repr

/-- The retry loop for one model candidate, started at attempt 0 with fuel
maxRetries + 1 and currentError undefined. Before attempt 0 it sleeps the
fixed spacing, before attempt a it sleeps computeRetryDelay(currentError, a);
a success returns, a non-retryable failure breaks, otherwise the loop
continues until the fuel (the remaining iterations of
attempt <= maxRetries) runs out. The error result is currentError at loop
exit. -/
def attemptLoop (cfg : GeminiConfig) (oracle : GemOracle) (model : String) :
    Nat → Nat → Option GemThrow →
    Except (Option GemThrow) String × List GemEvent
  | _, 0, currentError => (.error currentError, [])
  | attempt, fuel + 1, currentError =>
    let delay :=
      if attempt = 0 then cfg.spacingMs else computeRetryDelay cfg currentError attempt
    match oracle model attempt with
    | .ok text => (.ok text, [.sleepMs delay, .call model attempt])
    | .error e =>
      if isRetryableGeminiError (some e) then
        let cont := attemptLoop cfg oracle model (attempt + 1) fuel (some e)
        (cont.1, .sleepMs delay :: .call model attempt :: cont.2)
      else (.error (some e), [.sleepMs delay, .call model attempt])

/-- The loop over model candidates, threading preferredError and lastError.
After a candidate fails: record lastError; record preferredError when the
failure is not a 404; a 404 advances to the next candidate; any other
failure that is neither a quota error nor retryable breaks out; otherwise
the loop advances to the next candidate. The error result carries
(preferredError, lastError) at loop exit. -/
def candidatesLoop (cfg : GeminiConfig) (oracle : GemOracle) :
    List String → Option GemThrow → Option GemThrow →
    Except (Option GemThrow × Option GemThrow) String × List GemEvent
  | [], preferredError, lastError => (.error (preferredError, lastError), [])
  | model :: restModels, preferredError, _lastError =>
    let run := attemptLoop cfg oracle model 0 (cfg.maxRetries + 1) none
    match run.1 with
    | .ok text => (.ok text, run.2)
    | .error currentError =>
      let lastError1 := currentError
      let preferredError1 :=
        match currentError with
        | some e =>
          if isModelNotFoundError (some e) then preferredError else some e
        | none => preferredError
      if isModelNotFoundError currentError then
        let cont := candidatesLoop cfg oracle restModels preferredError1 lastError1
        (cont.1, run.2 ++ cont.2)
      else if !(isQuotaError currentError) && !(isRetryableGeminiError currentError) then
        (.error (preferredError1, lastError1), run.2)
      else
        let cont := candidatesLoop cfg oracle restModels preferredError1 lastError1
        (cont.1, run.2 ++ cont.2)

/-- Insertion-ordered deduplication ([...new Set(values)]). -/
def uniqueValues (values : List String) : List String :=
  values.foldl (fun acc v => if v ∈ acc then acc else acc ++ [v]) []

/-- The error finally thrown by callGeminiWithFallbackAndRetries: the
distinct all-models-404 error, the rethrown preferred or last failure, or
the generic failure when no error value was recorded. -/
inductive GemFinalError
  | allModelsNotFound (msg : String)
  | rethrown (e : GemThrow)
  | genericFailure
  deriving DecidableEq, Repr

def callGeminiWithFallbackAndRetries (cfg : GeminiConfig) (oracle : GemOracle)
    (inputModel : String) : Except GemFinalError String × List GemEvent :=
  let modelCandidates := uniqueValues (inputModel :: cfg.fallbackModels)
  let run := candidatesLoop cfg oracle modelCandidates none none
  match run.1 with
  | .ok text => (.ok text, run.2)
  | .error pair =>
    let finalError :=
      match pair.1 with
      | some e => some e
      | none => pair.2
    match finalError with
    | some e =>
      if isModelNotFoundError (some e) then
        (.error (.allModelsNotFound
          ("All configured Gemini models returned 404: " ++
            String.intercalate ", " modelCandidates ++
            ". Update GEMINI_MODEL/GEMINI_FALLBACK_MODELS with IDs supported by your key. Last error: " ++
            e.message)), run.2)
      else (.error (.rethrown e), run.2)
    | none => (.error .genericFailure, run.2)

/-! ## Per-backend FIFO queue (enqueueGeminiWork)

callGemini routes every Gemini-bound call through enqueueGeminiWork, which
chains it on the shared module-level promise: run = geminiQueue.then(task,
task) invokes the work item exactly when the previous queue promise settles,
whatever its outcome, and geminiQueue = run.then(noop, noop) fulfills when
the work item settles, whatever its outcome. The model assigns each work
item an abstract duration and outcome and derives start and settle
instants. -/

structure QueueTask where
  durationMs : Nat
  succeeds : Bool
  deriving DecidableEq, Repr

inductive PromiseSettled
  | fulfilledAt (t : Nat)
  | rejectedAt (t : Nat)
  deriving DecidableEq, Repr

def settleTime : PromiseSettled → Nat
  | .fulfilledAt t => t
  | .rejectedAt t => t

/-- One work item run from its start instant settles after its duration,
fulfilled or rejected. -/
def runQueuedTask (startAt : Nat) (task : QueueTask) : PromiseSettled :=
  if task.succeeds then .fulfilledAt (startAt + task.durationMs)
  else .rejectedAt (startAt + task.durationMs)

/-- run.then(noop, noop): the next queue promise fulfills exactly when the
work item settles, success or failure. -/
def queueAfter (run : PromiseSettled) : PromiseSettled :=
  .fulfilledAt (settleTime run)

/-- Enqueue a list of work items in order on the given queue promise:
each starts when the queue promise before it settles. Returns each item
start instant and settled outcome, in enqueue order. -/
def enqueueAll : PromiseSettled → List QueueTask → List (Nat × PromiseSettled)
  | _, [] => []
  | queue, task :: rest =>
    let start := settleTime queue
    let run := runQueuedTask start task
    (start, run) :: enqueueAll (queueAfter run) rest

/-- The module-level queue starts as Promise.resolve(), settled at instant
0. -/
def geminiQueueSchedule (tasks : List QueueTask) : List (Nat × PromiseSettled) :=
  enqueueAll (.fulfilledAt 0) tasks

/-! ## Derived definitions used by the statements -/

/-- Recover the underlying condition result of a blinded response (drop the
added blind id). -/
def stripBlind (b : BlindedResponse) : ConditionResult :=
  { conditionId := b.sourceConditionId
    conditionLabel := b.sourceConditionLabel
    answer := b.answer
    transcript := b.transcript }

/-- All draw lists of the three Fisher-Yates steps on four elements: the
step at index i draws floor(r * (i + 1)) for uniform r in [0, 1), hence
uniformly from 0..i; the 4 * 3 * 2 = 24 draw lists are equally likely. -/
def allFourDraws : List (List Nat) :=
  (List.range 4).flatMap (fun d3 =>
    (List.range 3).flatMap (fun d2 =>
      (List.range 2).map (fun d1 => [d3, d2, d1])))

/-- An oracle for which every backend call returns a text. -/
def okOracle (g : LlmCallInput → String) : Oracle := fun c => .ok (g c)

/-- The fixed condition identity order of the four runner slots. -/
def slotConditionIds : List ExperimentConditionId :=
  [.single_plain, .multi_mixed_models, .multi_same_model_roles, .single_role]

/-- A concrete five-element result list (witness data exercising the
generated label beyond the fixed four). -/
def sampleFive : List ConditionResult :=
  [{ conditionId := .single_plain, conditionLabel := "l1", answer := "a1", transcript := [] },
   { conditionId := .single_role, conditionLabel := "l2", answer := "a2", transcript := [] },
   { conditionId := .multi_mixed_models, conditionLabel := "l3", answer := "a3", transcript := [] },
   { conditionId := .multi_same_model_roles, conditionLabel := "l4", answer := "a4", transcript := [] },
   { conditionId := .single_plain, conditionLabel := "l5", answer := "a5", transcript := [] }]

/-- Concrete settled runner outcomes with exactly one throw, in slot 1
(witness data). -/
def sampleOutcomes : List (Except RunError ConditionResult) :=
  [.ok { conditionId := .single_plain, conditionLabel := "l1", answer := "a1", transcript := [] },
   .error (.jsError "boom"),
   .ok { conditionId := .multi_same_model_roles, conditionLabel := "l3", answer := "a3", transcript := [] },
   .ok { conditionId := .single_role, conditionLabel := "l4", answer := "a4", transcript := [] }]

/-- Concrete Gemini failures (witness data). -/
def gemErr404 : GemThrow :=
  .callError { message := "nf", status := 404, model := "m1", bodyText := "b" }

def gemErr429 : GemThrow :=
  .callError { message := "quota", status := 429, model := "m1", bodyText := "b" }

def gemErr400 : GemThrow :=
  .callError { message := "bad", status := 400, model := "m1", bodyText := "b" }

/-- RetryInfo detail and body carrying a 5 second hint (witness data). -/
def gemHintDetail : GeminiErrorDetail :=
  { atType := some "type.googleapis.com/google.rpc.RetryInfo"
    retryDelay := some "5s" }

def gemHintBody : GeminiErrorBody :=
  { status := some "RESOURCE_EXHAUSTED"
    details := some [gemHintDetail] }

/-- A 429 failure carrying a RetryInfo hint of 5 seconds (witness data). -/
def gemErr429Hint : GemThrow :=
  .callError
    { message := "quota"
      status := 429
      model := "m1"
      bodyText := "b"
      bodyJson := some { error := some gemHintBody } }

def gemCfgTwo : GeminiConfig := { fallbackModels := ["m2"] }

def gemOracle404 : GemOracle :=
  fun m _ => if m = "m1" then .error gemErr404 else .ok "hi"

def gemOracle429 : GemOracle :=
  fun m _ => if m = "m1" then .error gemErr429 else .ok "hi"

def gemOracle400 : GemOracle :=
  fun m _ => if m = "m1" then .error gemErr400 else .ok "hi"

/-! ## Lemmas about the association-list Map -/

theorem mapGet_cons_pos {α : Type} (p : String × α) (m : List (String × α))
    (k : String) (h : p.1 = k) : mapGet (p :: m) k = some p.2 := by
  simp [mapGet, List.find?_cons, h]

theorem mapGet_cons_neg {α : Type} (p : String × α) (m : List (String × α))
    (k : String) (h : ¬ p.1 = k) : mapGet (p :: m) k = mapGet m k := by
  simp [mapGet, List.find?_cons, h]

theorem find?_map_setFn {α : Type} (m : List (String × α)) (k : String) (v : α)
    (h : m.any (fun p => p.1 = k) = true) :
    mapGet (m.map (fun p => if p.1 = k then (k, v) else p)) k = some v := by
  induction m with
  | nil => simp at h
  | cons p m ih =>
    simp only [List.map_cons]
    by_cases hp : p.1 = k
    · rw [if_pos hp, mapGet_cons_pos _ _ _ rfl]
    · have h' : m.any (fun q => q.1 = k) = true := by
        simp only [List.any_cons, Bool.or_eq_true, decide_eq_true_eq] at h
        rcases h with h | h
        · exact absurd h hp
        · exact h
      rw [if_neg hp, mapGet_cons_neg _ _ _ hp]
      exact ih h'

theorem find?_map_setFn_ne {α : Type} (m : List (String × α)) (k k' : String)
    (v : α) (hne : k' ≠ k) :
    mapGet (m.map (fun p => if p.1 = k then (k, v) else p)) k' = mapGet m k' := by
  induction m with
  | nil => rfl
  | cons p m ih =>
    simp only [List.map_cons]
    by_cases hp : p.1 = k
    · have h1 : ¬ ((k, v) : String × α).1 = k' := fun h => hne h.symm
      have hp' : ¬ p.1 = k' := by rw [hp]; exact fun h => hne h.symm
      rw [if_pos hp, mapGet_cons_neg _ _ _ h1, mapGet_cons_neg _ _ _ hp', ih]
    · rw [if_neg hp]
      by_cases hp' : p.1 = k'
      · rw [mapGet_cons_pos _ _ _ hp', mapGet_cons_pos _ _ _ hp']
      · rw [mapGet_cons_neg _ _ _ hp', mapGet_cons_neg _ _ _ hp', ih]

theorem mapGet_mapSet {α : Type} (m : List (String × α)) (k k' : String) (v : α) :
    mapGet (mapSet m k v) k' = if k' = k then some v else mapGet m k' := by
  unfold mapSet
  by_cases hany : m.any (fun p => p.1 = k) = true
  · rw [if_pos hany]
    by_cases hk : k' = k
    · subst hk
      rw [if_pos rfl, find?_map_setFn m k' v hany]
    · rw [if_neg hk, find?_map_setFn_ne m k k' v hk]
  · rw [if_neg hany]
    have hnone : m.find? (fun p => p.1 = k) = none := by
      rw [List.find?_eq_none]
      intro x hx hpx
      exact hany (List.any_eq_true.mpr ⟨x, hx, hpx⟩)
    by_cases hk : k' = k
    · subst hk
      rw [if_pos rfl]
      unfold mapGet
      rw [List.find?_append, hnone]
      simp [List.find?_cons]
    · rw [if_neg hk]
      unfold mapGet
      rw [List.find?_append]
      have hkk : ¬ (k = k') := fun h => hk h.symm
      have hlast : ([(k, v)] : List (String × α)).find? (fun p => p.1 = k') = none := by
        simp [List.find?_cons, hkk]
      rw [hlast]
      simp

/-! ## Lemmas about the Fisher-Yates shuffle -/

theorem get_cons_set_perm {α : Type} :
    ∀ (l : List α) (j : Nat) (hj : j < l.length) (a : α),
      List.Perm (l.get ⟨j, hj⟩ :: l.set j a) (a :: l)
  | b :: l, 0, _, a => by
    simpa using List.Perm.swap a b l
  | b :: l, j + 1, hj, a => by
    have h1 : j < l.length := Nat.lt_of_succ_lt_succ hj
    have step1 : List.Perm (l.get ⟨j, h1⟩ :: b :: l.set j a)
        (b :: l.get ⟨j, h1⟩ :: l.set j a) := List.Perm.swap b (l.get ⟨j, h1⟩) _
    have step2 : List.Perm (b :: l.get ⟨j, h1⟩ :: l.set j a) (b :: a :: l) :=
      List.Perm.cons b (get_cons_set_perm l j h1 a)
    have step3 : List.Perm (b :: a :: l) (a :: b :: l) := List.Perm.swap a b l
    simpa using (step1.trans step2).trans step3

theorem set_get_self {α : Type} :
    ∀ (l : List α) (n : Nat) (h : n < l.length), l.set n (l.get ⟨n, h⟩) = l
  | _ :: _, 0, _ => rfl
  | b :: l, n + 1, h => by
    have h1 : n < l.length := Nat.lt_of_succ_lt_succ h
    have hstep : (b :: l).set (n + 1) ((b :: l).get ⟨n + 1, h⟩) =
        b :: l.set n (l.get ⟨n, h1⟩) := rfl
    rw [hstep, set_get_self l n h1]

theorem set_set_swap_perm {α : Type} :
    ∀ (l : List α) (i j : Nat) (hi : i < l.length) (hj : j < l.length),
      List.Perm ((l.set i (l.get ⟨j, hj⟩)).set j (l.get ⟨i, hi⟩)) l
  | b :: l, 0, 0, _, _ => by simp
  | b :: l, 0, j + 1, hi, hj => by
    have h1 : j < l.length := Nat.lt_of_succ_lt_succ hj
    simpa [List.set] using get_cons_set_perm l j h1 b
  | b :: l, i + 1, 0, hi, hj => by
    have h1 : i < l.length := Nat.lt_of_succ_lt_succ hi
    simpa [List.set] using get_cons_set_perm l i h1 b
  | b :: l, i + 1, j + 1, hi, hj => by
    have h1 : i < l.length := Nat.lt_of_succ_lt_succ hi
    have h2 : j < l.length := Nat.lt_of_succ_lt_succ hj
    simpa [List.set] using List.Perm.cons b (set_set_swap_perm l i j h1 h2)

theorem listSwap_perm {α : Type} (l : List α) (i j : Nat)
    (hi : i < l.length) (hj : j < l.length) : List.Perm (listSwap l i j) l := by
  unfold listSwap
  rw [List.get?_eq_get hi, List.get?_eq_get hj]
  exact set_set_swap_perm l i j hi hj

theorem listSwap_length {α : Type} (l : List α) (i j : Nat) :
    (listSwap l i j).length = l.length := by
  unfold listSwap
  cases l.get? i <;> cases l.get? j <;> simp

theorem fyLoop_length {α : Type} :
    ∀ (i : Nat) (ds : List Nat) (l : List α), (fyLoop i ds l).length = l.length
  | 0, _, _ => rfl
  | _ + 1, [], _ => rfl
  | i + 1, d :: ds, l => by
    rw [fyLoop, fyLoop_length i ds, listSwap_length]

theorem fyLoop_perm {α : Type} :
    ∀ (i : Nat) (ds : List Nat) (l : List α), drawsValidB i ds = true →
      i < l.length → List.Perm (fyLoop i ds l) l
  | 0, _, l, _, _ => List.Perm.refl l
  | _ + 1, [], _, hv, _ => by simp [drawsValidB] at hv
  | i + 1, d :: ds, l, hv, hi => by
    simp only [drawsValidB, Bool.and_eq_true, decide_eq_true_eq] at hv
    obtain ⟨hd, hv'⟩ := hv
    have hdl : d < l.length := Nat.lt_of_le_of_lt hd hi
    have hswap := listSwap_perm l (i + 1) d hi hdl
    have hlen : (listSwap l (i + 1) d).length = l.length := listSwap_length l (i + 1) d
    have hi' : i < (listSwap l (i + 1) d).length := by
      rw [hlen]; exact Nat.lt_of_succ_lt hi
    exact (fyLoop_perm i ds (listSwap l (i + 1) d) hv' hi').trans hswap

theorem listSwap_map {α β : Type} (g : α → β) (l : List α) (i j : Nat) :
    listSwap (l.map g) i j = (listSwap l i j).map g := by
  unfold listSwap
  rw [List.get?_map, List.get?_map]
  cases l.get? i <;> cases l.get? j <;> simp [List.map_set]

theorem fyLoop_map {α β : Type} :
    ∀ (i : Nat) (ds : List Nat) (l : List α) (g : α → β),
      fyLoop i ds (l.map g) = (fyLoop i ds l).map g
  | 0, _, _, _ => rfl
  | _ + 1, [], _, _ => rfl
  | i + 1, d :: ds, l, g => by
    rw [fyLoop, fyLoop, listSwap_map, fyLoop_map i ds]

/-! ## Lemmas about enumeration and blinding -/

theorem enumFrom_map_get? {α β : Type} (f : Nat × α → β) :
    ∀ (n : Nat) (l : List α) (i : Nat),
      ((List.enumFrom n l).map f).get? i = (l.get? i).map (fun a => f (n + i, a))
  | _, [], _ => by simp
  | n, a :: l, 0 => by simp
  | n, a :: l, i + 1 => by
    have ih := enumFrom_map_get? f (n + 1) l i
    simp only [List.enumFrom, List.map_cons, List.get?_cons_succ, ih]
    have : n + 1 + i = n + (i + 1) := by omega
    rw [this]

theorem enum_map_get? {α β : Type} (f : Nat × α → β) (l : List α) (i : Nat) :
    ((l.enum).map f).get? i = (l.get? i).map (fun a => f (i, a)) := by
  have := enumFrom_map_get? f 0 l i
  simpa [List.enum] using this

theorem blindAndShuffle_map_strip (draws : List Nat) (results : List ConditionResult) :
    (blindAndShuffle draws results).map stripBlind =
      fyLoop (results.length - 1) draws results := by
  unfold blindAndShuffle
  rw [List.map_map]
  have hcomp : (stripBlind ∘ (fun p : Nat × ConditionResult =>
      ({ blindId := (blindLabels.get? p.1).getD ("Response " ++ toString (p.1 + 1))
         answer := p.2.answer
         sourceConditionId := p.2.conditionId
         sourceConditionLabel := p.2.conditionLabel
         transcript := p.2.transcript } : BlindedResponse))) = Prod.snd := by
    funext p
    rfl
  rw [hcomp, List.enum_map_snd]

theorem blindAndShuffle_length (draws : List Nat) (results : List ConditionResult) :
    (blindAndShuffle draws results).length = results.length := by
  have h := congrArg List.length (blindAndShuffle_map_strip draws results)
  simpa [fyLoop_length] using h

theorem blindAndShuffle_get?_blindId (draws : List Nat)
    (results : List ConditionResult) (i : Nat) (b : BlindedResponse)
    (hb : (blindAndShuffle draws results).get? i = some b) :
    b.blindId = (blindLabels.get? i).getD ("Response " ++ toString (i + 1)) := by
  unfold blindAndShuffle at hb
  rw [enum_map_get?] at hb
  cases hget : (fyLoop (results.length - 1) draws results).get? i with
  | none => rw [hget] at hb; simp at hb
  | some r =>
    rw [hget] at hb
    simp only [Option.map] at hb
    injection hb with hb
    rw [← hb]

theorem length_eq_four_exists {α : Type} (l : List α) (h : l.length = 4) :
    ∃ a b c d, l = [a, b, c, d] := by
  rcases l with _ | ⟨a, l⟩
  · simp at h
  rcases l with _ | ⟨b, l⟩
  · simp at h
  rcases l with _ | ⟨c, l⟩
  · simp at h
  rcases l with _ | ⟨d, l⟩
  · simp at h
  rcases l with _ | ⟨e, l⟩
  · exact ⟨a, b, c, d, rfl⟩
  · simp at h

/-- C10: blindAndShuffle on an input list of any length returns exactly a
rearrangement of the input elements: stripping the added blind id recovers
the shuffled input list, which is a permutation of the input, so answer,
source condition id, source condition label and transcript pass through
unchanged and each input element appears exactly once; the blind id at
position i is the fixed label for the first four positions and the generated
label Response (i+1) beyond. -/
theorem c10_blindAndShuffle_frame (results : List ConditionResult)
    (draws : List Nat)
    (hd : drawsValidB (results.length - 1) draws = true) :
    (blindAndShuffle draws results).map stripBlind =
        fyLoop (results.length - 1) draws results ∧
    List.Perm ((blindAndShuffle draws results).map stripBlind) results ∧
    (blindAndShuffle draws results).length = results.length ∧
    (∀ (i : Nat) (b : BlindedResponse),
      (blindAndShuffle draws results).get? i = some b →
      b.blindId = (blindLabels.get? i).getD ("Response " ++ toString (i + 1))) := by
  refine ⟨blindAndShuffle_map_strip draws results, ?_,
    blindAndShuffle_length draws results,
    fun i b hb => blindAndShuffle_get?_blindId draws results i b hb⟩
  rw [blindAndShuffle_map_strip]
  cases results with
  | nil => exact List.Perm.refl _
  | cons r rs =>
    exact fyLoop_perm rs.length draws (r :: rs) (by simpa using hd) (by simp)

/-- Witness for C10 at a concrete five-element input and draw list. -/
theorem c10_blindAndShuffle_frame_witness :
    drawsValidB (sampleFive.length - 1) [4, 0, 2, 1] = true ∧
    ((blindAndShuffle [4, 0, 2, 1] sampleFive).map stripBlind =
        fyLoop (sampleFive.length - 1) [4, 0, 2, 1] sampleFive ∧
    List.Perm ((blindAndShuffle [4, 0, 2, 1] sampleFive).map stripBlind) sampleFive ∧
    (blindAndShuffle [4, 0, 2, 1] sampleFive).length = sampleFive.length ∧
    (∀ (i : Nat) (b : BlindedResponse),
      (blindAndShuffle [4, 0, 2, 1] sampleFive).get? i = some b →
      b.blindId = (blindLabels.get? i).getD ("Response " ++ toString (i + 1)))) :=
  ⟨by decide, c10_blindAndShuffle_frame sampleFive [4, 0, 2, 1] (by decide)⟩

theorem filter_eq_count_map {α β : Type} [DecidableEq β] (F : α → β)
    (l : List α) (p : β) :
    (l.filter (fun d => F d = p)).length = List.count p (l.map F) := by
  induction l with
  | nil => rfl
  | cons a l ih =>
    by_cases h : F a = p
    · simp [List.filter_cons, List.count_cons, h, ih]
    · simp [List.filter_cons, List.count_cons, h, ih, Ne.symm h]

/-- C8: with the Math.random draws of the four-slot shuffle modelled as
explicit uniform independent inputs, one drawn index per Fisher-Yates step
(the step at index i drawing uniformly from 0..i), the 24 draw lists are
equally likely and every one of the 4! = 24 orderings of the four positions
is produced by exactly one draw list, so each ordering has probability
1/24; the shuffle acts on positions only (it commutes with assigning
concrete results to positions), and the opaque labels are assigned
sequentially to the shuffled positions. -/
theorem c8_shuffle_uniform :
    allFourDraws.length = 24 ∧
    (∀ p : List Nat, List.Perm p [0, 1, 2, 3] →
      (allFourDraws.filter (fun d => fyLoop 3 d [0, 1, 2, 3] = p)).length = 1) ∧
    (∀ (f : Nat → ConditionResult) (d : List Nat),
      fyLoop 3 d ([0, 1, 2, 3].map f) = (fyLoop 3 d [0, 1, 2, 3]).map f) ∧
    (∀ (results : List ConditionResult) (draws : List Nat),
      results.length = 4 →
      (blindAndShuffle draws results).map (fun b => b.blindId) = blindLabels) := by
  refine ⟨rfl, ?_, fun f d => fyLoop_map 3 d [0, 1, 2, 3] f, ?_⟩
  · intro p hp
    have houtNodup : (allFourDraws.map (fun d => fyLoop 3 d [0, 1, 2, 3])).Nodup := by
      decide
    have hsub : (allFourDraws.map (fun d => fyLoop 3 d [0, 1, 2, 3])) ⊆
        ([0, 1, 2, 3] : List Nat).permutations := by
      intro o ho
      rw [List.mem_map] at ho
      obtain ⟨d, hd, rfl⟩ := ho
      rw [List.mem_permutations]
      have hvalid : drawsValidB 3 d = true := by
        have hall : ∀ x ∈ allFourDraws, drawsValidB 3 x = true := by decide
        exact hall d hd
      exact fyLoop_perm 3 d [0, 1, 2, 3] hvalid (by decide)
    have hperm : List.Perm (allFourDraws.map (fun d => fyLoop 3 d [0, 1, 2, 3]))
        ([0, 1, 2, 3] : List Nat).permutations := by
      refine (List.subperm_of_subset houtNodup hsub).perm_of_length_le ?_
      rw [List.length_permutations]
      decide
    have hpmem : p ∈ allFourDraws.map (fun d => fyLoop 3 d [0, 1, 2, 3]) := by
      refine hperm.mem_iff.mpr ?_
      rw [List.mem_permutations]
      exact hp
    rw [filter_eq_count_map]
    exact List.count_eq_one_of_mem houtNodup hpmem
  · intro results draws h4
    unfold blindAndShuffle
    rw [List.map_map]
    have hlen : (fyLoop (results.length - 1) draws results).length = 4 := by
      rw [fyLoop_length]
      exact h4
    obtain ⟨a, b, c, d, heq⟩ := length_eq_four_exists _ hlen
    rw [heq]
    rfl

/-- Witness for C8 at one concrete ordering and one concrete result list. -/
theorem c8_shuffle_uniform_witness :
    List.Perm ([1, 0, 2, 3] : List Nat) [0, 1, 2, 3] ∧
    (allFourDraws.filter
      (fun d => fyLoop 3 d [0, 1, 2, 3] = ([1, 0, 2, 3] : List Nat))).length = 1 ∧
    (sampleFive.take 4).length = 4 ∧
    (blindAndShuffle [2, 0, 1] (sampleFive.take 4)).map (fun b => b.blindId) =
      blindLabels :=
  ⟨by decide, c8_shuffle_uniform.2.1 [1, 0, 2, 3] (by decide), by decide,
    c8_shuffle_uniform.2.2.2 (sampleFive.take 4) [2, 0, 1] (by decide)⟩

/-! ## Lemmas about the coordinator -/

theorem seqGo_eq_enumFrom (n : Nat) (outcomes : List (Except RunError ConditionResult)) :
    runConditionsSeqGo n outcomes = (List.enumFrom n outcomes).map (fun p =>
      match p.2 with
      | .ok r => r
      | .error e => buildFailedConditionResult p.1 e) := by
  induction outcomes generalizing n with
  | nil => rfl
  | cons o rest ih =>
    cases o with
    | ok r => simp [runConditionsSeqGo, List.enumFrom, ih]
    | error e => simp [runConditionsSeqGo, List.enumFrom, ih]

/-- Serial and concurrent modes produce the same condition results from the
same settled runner outcomes. -/
theorem runConditions_par_eq_seq (outcomes : List (Except RunError ConditionResult)) :
    runConditionsInParallel outcomes = runConditionsSequentially outcomes := by
  unfold runConditionsInParallel runConditionsSequentially List.enum
  rw [seqGo_eq_enumFrom]

theorem runConditionsSequentially_get? (outcomes : List (Except RunError ConditionResult))
    (j : Nat) :
    (runConditionsSequentially outcomes).get? j = (outcomes.get? j).map (fun o =>
      match o with
      | .ok r => r
      | .error e => buildFailedConditionResult j e) := by
  unfold runConditionsSequentially
  rw [seqGo_eq_enumFrom]
  have h := enumFrom_map_get? (fun p : Nat × Except RunError ConditionResult =>
    match p.2 with
    | .ok r => r
    | .error e => buildFailedConditionResult p.1 e) 0 outcomes j
  simpa using h

theorem runConditionsSequentially_length (outcomes : List (Except RunError ConditionResult)) :
    (runConditionsSequentially outcomes).length = outcomes.length := by
  unfold runConditionsSequentially
  rw [seqGo_eq_enumFrom, List.length_map, List.enumFrom_length]

theorem runSingleCondition_ok_id (oracle : Oracle) (inp : SingleConditionInput)
    (r : ConditionResult) (h : runSingleCondition oracle inp = .ok r) :
    r.conditionId = inp.conditionId := by
  unfold runSingleCondition at h
  dsimp only at h
  split at h
  · exact Except.noConfusion h
  · injection h with h2
    rw [← h2]

theorem runDebateCondition_ok_id (oracle : Oracle) (maxTok : Nat)
    (inp : DebateConditionInput) (r : ConditionResult)
    (h : runDebateCondition oracle maxTok inp = .ok r) :
    r.conditionId = inp.conditionId := by
  unfold runDebateCondition at h
  split at h
  · exact Except.noConfusion h
  · injection h with h2
    rw [← h2]

theorem seq_map_ids (o0 o1 o2 o3 : Except RunError ConditionResult)
    (h0 : ∀ r, o0 = .ok r → r.conditionId = .single_plain)
    (h1 : ∀ r, o1 = .ok r → r.conditionId = .multi_mixed_models)
    (h2 : ∀ r, o2 = .ok r → r.conditionId = .multi_same_model_roles)
    (h3 : ∀ r, o3 = .ok r → r.conditionId = .single_role) :
    (runConditionsSequentially [o0, o1, o2, o3]).map (fun r => r.conditionId) =
      slotConditionIds := by
  rcases o0 with e0 | r0 <;> rcases o1 with e1 | r1 <;>
    rcases o2 with e2 | r2 <;> rcases o3 with e3 | r3 <;>
    simp_all [runConditionsSequentially, runConditionsSeqGo,
      buildFailedConditionResult, fallbackMappings, slotConditionIds]

/-- The map of condition ids of the four slots is fixed whatever the runner
outcomes: successful runners stamp their configured condition id, failures
are replaced positionally with the same id. -/
theorem conditionResults_map_ids (cfg : Config) (models : ModelCatalog)
    (oracle : Oracle) (question : String) :
    (runConditionsSequentially (conditionRunners cfg models oracle question)).map
      (fun r => r.conditionId) = slotConditionIds := by
  apply seq_map_ids
  · exact fun r h => runSingleCondition_ok_id oracle _ r h
  · exact fun r h => runDebateCondition_ok_id oracle _ _ r h
  · exact fun r h => runDebateCondition_ok_id oracle _ _ r h
  · exact fun r h => runSingleCondition_ok_id oracle _ r h

theorem blindAndShuffle_map_blindId_of_four (results : List ConditionResult)
    (draws : List Nat) (h4 : results.length = 4) :
    (blindAndShuffle draws results).map (fun b => b.blindId) = blindLabels := by
  unfold blindAndShuffle
  rw [List.map_map]
  have hlen : (fyLoop (results.length - 1) draws results).length = 4 := by
    rw [fyLoop_length]
    exact h4
  obtain ⟨a, b, c, d, heq⟩ := length_eq_four_exists _ hlen
  rw [heq]
  rfl

theorem blindAndShuffle_ids_nodup (results : List ConditionResult)
    (draws : List Nat) (h4 : results.length = 4)
    (hd : drawsValidB 3 draws = true)
    (hids : results.map (fun r => r.conditionId) = slotConditionIds) :
    ((blindAndShuffle draws results).map (fun b => b.sourceConditionId)).Nodup := by
  have hstrip := blindAndShuffle_map_strip draws results
  have hperm : List.Perm ((blindAndShuffle draws results).map stripBlind) results := by
    rw [hstrip]
    obtain ⟨a, b, c, d, heq⟩ := length_eq_four_exists results h4
    subst heq
    exact fyLoop_perm 3 draws [a, b, c, d] (by simpa using hd) (by simp)
  have hmap := hperm.map (fun r => r.conditionId)
  rw [hids, List.map_map] at hmap
  have hfun : ((fun r : ConditionResult => r.conditionId) ∘ stripBlind) =
      (fun b : BlindedResponse => b.sourceConditionId) := rfl
  rw [hfun] at hmap
  exact (hmap.nodup_iff).mpr (by decide)

/-- C1: every completed runExperiment run returns exactly 4 blinded
responses, their blind ids are exactly the fixed label set (a permutation of
it, with no duplicates), and no two responses share a source condition id,
whatever the backend oracle, configuration, and valid shuffle draws. -/
theorem c1_runExperiment_blinding (cfg : Config) (models : ModelCatalog)
    (oracle : Oracle) (runId createdAt : String) (draws : List Nat)
    (question : String) (hd : drawsValidB 3 draws = true) :
    (runExperiment cfg models oracle runId createdAt draws question).responses.length = 4 ∧
    (runExperiment cfg models oracle runId createdAt draws question).responses.map
      (fun b => b.blindId) = blindLabels ∧
    ((runExperiment cfg models oracle runId createdAt draws question).responses.map
      (fun b => b.blindId)).Nodup ∧
    ((runExperiment cfg models oracle runId createdAt draws question).responses.map
      (fun b => b.sourceConditionId)).Nodup := by
  have hresults : (if cfg.serializeConditions then
        runConditionsSequentially (conditionRunners cfg models oracle question)
      else runConditionsInParallel (conditionRunners cfg models oracle question)) =
      runConditionsSequentially (conditionRunners cfg models oracle question) := by
    cases cfg.serializeConditions with
    | false => simpa using runConditions_par_eq_seq (conditionRunners cfg models oracle question)
    | true => simp
  have hresp : (runExperiment cfg models oracle runId createdAt draws question).responses =
      blindAndShuffle draws
        (runConditionsSequentially (conditionRunners cfg models oracle question)) := by
    show blindAndShuffle draws _ = _
    rw [hresults]
  have hlen4 : (runConditionsSequentially (conditionRunners cfg models oracle question)).length = 4 := by
    rw [runConditionsSequentially_length]
    rfl
  have hids := conditionResults_map_ids cfg models oracle question
  refine ⟨?_, ?_, ?_, ?_⟩
  · rw [hresp, blindAndShuffle_length, hlen4]
  · rw [hresp]
    exact blindAndShuffle_map_blindId_of_four _ draws hlen4
  · rw [hresp, blindAndShuffle_map_blindId_of_four _ draws hlen4]
    decide
  · rw [hresp]
    exact blindAndShuffle_ids_nodup _ draws hlen4 hd hids

/-- Witness for C1 at a concrete oracle, configuration and draw list. -/
theorem c1_runExperiment_blinding_witness :
    drawsValidB 3 [1, 2, 0] = true ∧
    ((runExperiment {} {} (okOracle (fun _ => "text")) "rid" "ts" [1, 2, 0] "Q").responses.length = 4 ∧
    (runExperiment {} {} (okOracle (fun _ => "text")) "rid" "ts" [1, 2, 0] "Q").responses.map
      (fun b => b.blindId) = blindLabels ∧
    ((runExperiment {} {} (okOracle (fun _ => "text")) "rid" "ts" [1, 2, 0] "Q").responses.map
      (fun b => b.blindId)).Nodup ∧
    ((runExperiment {} {} (okOracle (fun _ => "text")) "rid" "ts" [1, 2, 0] "Q").responses.map
      (fun b => b.sourceConditionId)).Nodup) :=
  ⟨by decide,
    c1_runExperiment_blinding {} {} (okOracle (fun _ => "text")) "rid" "ts" [1, 2, 0] "Q" (by decide)⟩

/-- C2: when exactly one of the four settled runner outcomes is a throw and
the other three return normally, the coordinator still produces 4 results
(hence 4 blinded responses for any valid draws): the failing slot k is
replaced by the synthetic result with the positionally mapped fallback
identity, the failure-marked answer carrying the thrown description, and an
empty transcript; every successful slot passes through unchanged, and
concurrent mode agrees with serial mode, so the failure aborts no sibling in
either mode. -/
theorem c2_failure_isolation (outcomes : List (Except RunError ConditionResult))
    (k : Nat) (e : RunError)
    (hlen : outcomes.length = 4)
    (hk : outcomes.get? k = some (.error e))
    (honly : ∀ j e', j ≠ k → outcomes.get? j ≠ some (.error e')) :
    runConditionsInParallel outcomes = runConditionsSequentially outcomes ∧
    (runConditionsSequentially outcomes).length = 4 ∧
    (runConditionsSequentially outcomes).get? k = some (buildFailedConditionResult k e) ∧
    (∃ fb, fallbackMappings.get? k = some fb ∧
      (buildFailedConditionResult k e).conditionId = fb.1 ∧
      (buildFailedConditionResult k e).conditionLabel = fb.2) ∧
    (buildFailedConditionResult k e).answer =
      "This condition failed to run.\n\nError: " ++ errorMessageOf e ∧
    (buildFailedConditionResult k e).transcript = [] ∧
    (∀ j r, outcomes.get? j = some (.ok r) →
      (runConditionsSequentially outcomes).get? j = some r) ∧
    (∀ j, j < 4 → j ≠ k → ∃ r, outcomes.get? j = some (.ok r) ∧
      (runConditionsSequentially outcomes).get? j = some r) ∧
    (∀ draws, drawsValidB 3 draws = true →
      (blindAndShuffle draws (runConditionsSequentially outcomes)).length = 4) := by
  have hk4 : k < 4 := by
    by_contra hcon
    have hge : outcomes.length ≤ k := by omega
    rw [List.get?_eq_none.mpr hge] at hk
    exact Option.noConfusion hk
  refine ⟨runConditions_par_eq_seq outcomes, ?_, ?_, ?_, rfl, rfl, ?_, ?_, ?_⟩
  · rw [runConditionsSequentially_length, hlen]
  · rw [runConditionsSequentially_get?, hk]
    rfl
  · interval_cases k <;> exact ⟨_, rfl, rfl, rfl⟩
  · intro j r hj
    rw [runConditionsSequentially_get?, hj]
    rfl
  · intro j hj4 hjk
    have hjlen : j < outcomes.length := by omega
    cases hoj : outcomes.get? j with
    | none =>
      rw [List.get?_eq_none] at hoj
      omega
    | some o =>
      cases o with
      | error e' => exact absurd hoj (honly j e' hjk)
      | ok r =>
        refine ⟨r, rfl, ?_⟩
        rw [runConditionsSequentially_get?, hoj]
        rfl
  · intro draws _
    rw [blindAndShuffle_length, runConditionsSequentially_length, hlen]

/-- Witness for C2 at concrete outcomes failing exactly in slot 1. -/
theorem c2_failure_isolation_witness :
    sampleOutcomes.length = 4 ∧
    sampleOutcomes.get? 1 = some (.error (.jsError "boom")) ∧
    (runConditionsInParallel sampleOutcomes = runConditionsSequentially sampleOutcomes ∧
    (runConditionsSequentially sampleOutcomes).length = 4 ∧
    (runConditionsSequentially sampleOutcomes).get? 1 =
      some (buildFailedConditionResult 1 (.jsError "boom")) ∧
    (∃ fb, fallbackMappings.get? 1 = some fb ∧
      (buildFailedConditionResult 1 (.jsError "boom")).conditionId = fb.1 ∧
      (buildFailedConditionResult 1 (.jsError "boom")).conditionLabel = fb.2) ∧
    (buildFailedConditionResult 1 (.jsError "boom")).answer =
      "This condition failed to run.\n\nError: " ++ errorMessageOf (.jsError "boom") ∧
    (buildFailedConditionResult 1 (.jsError "boom")).transcript = [] ∧
    (∀ j r, sampleOutcomes.get? j = some (.ok r) →
      (runConditionsSequentially sampleOutcomes).get? j = some r) ∧
    (∀ j, j < 4 → j ≠ 1 → ∃ r, sampleOutcomes.get? j = some (.ok r) ∧
      (runConditionsSequentially sampleOutcomes).get? j = some r) ∧
    (∀ draws, drawsValidB 3 draws = true →
      (blindAndShuffle draws (runConditionsSequentially sampleOutcomes)).length = 4)) :=
  ⟨by decide, by decide,
    c2_failure_isolation sampleOutcomes 1 (.jsError "boom") (by decide) (by decide)
      (by
        intro j e' hj
        match j with
        | 0 => simp [sampleOutcomes]
        | 1 => exact absurd rfl hj
        | 2 => simp [sampleOutcomes]
        | 3 => simp [sampleOutcomes]
        | (n + 4) => simp [sampleOutcomes])⟩

/-! ## Lemmas about the debate engine -/

theorem foldl_mapSet_preserves {α : Type} (f : DebateAgent → α) :
    ∀ (as : List DebateAgent) (m : List (String × α)) (id : String),
      (mapGet m id).isSome = true →
      (mapGet (as.foldl (fun acc a => mapSet acc a.id (f a)) m) id).isSome = true := by
  intro as
  induction as with
  | nil => intro m id h; exact h
  | cons a rest ih =>
    intro m id h
    apply ih
    rw [mapGet_mapSet]
    by_cases hid : id = a.id
    · rw [if_pos hid]; rfl
    · rw [if_neg hid]; exact h

theorem foldl_mapSet_untouched {α : Type} (f : DebateAgent → α) :
    ∀ (as : List DebateAgent) (m : List (String × α)) (id : String),
      (∀ a ∈ as, ¬ a.id = id) →
      mapGet (as.foldl (fun acc a => mapSet acc a.id (f a)) m) id = mapGet m id := by
  intro as
  induction as with
  | nil => intro m id _; rfl
  | cons a rest ih =>
    intro m id h
    rw [List.foldl_cons]
    rw [ih (mapSet m a.id (f a)) id (fun b hb => h b (List.mem_cons_of_mem a hb))]
    rw [mapGet_mapSet]
    have hne : ¬ id = a.id := fun hc => h a (List.mem_cons_self a rest) hc.symm
    rw [if_neg hne]

theorem foldl_mapSet_sets {α : Type} (f : DebateAgent → α) :
    ∀ (as : List DebateAgent) (m : List (String × α)) (X : DebateAgent),
      X ∈ as → (as.map (fun a => a.id)).Nodup →
      mapGet (as.foldl (fun acc a => mapSet acc a.id (f a)) m) X.id = some (f X) := by
  intro as
  induction as with
  | nil => intro m X hX; exact absurd hX (List.not_mem_nil X)
  | cons a rest ih =>
    intro m X hX hn
    rw [List.map_cons, List.nodup_cons] at hn
    rcases List.mem_cons.mp hX with rfl | hXr
    · rw [List.foldl_cons, foldl_mapSet_untouched f rest _ X.id ?hrest]
      · rw [mapGet_mapSet, if_pos rfl]
      case hrest =>
        intro b hb hbid
        exact hn.1 (hbid ▸ List.mem_map_of_mem (fun a => a.id) hb)
    · rw [List.foldl_cons]
      exact ih _ X hXr hn.2

theorem initialHistories_isSome (agents : List DebateAgent) :
    ∀ a ∈ agents, (mapGet (initialHistories agents) a.id).isSome = true := by
  intro a ha
  unfold initialHistories
  have hgen : ∀ (as : List DebateAgent) (m : List (String × List ChatMessage)),
      a ∈ as → (mapGet (as.foldl (fun acc ag => mapSet acc ag.id
        [{ role := .system, content := interpolatePersona ag.persona }]) m) a.id).isSome = true := by
    intro as
    induction as with
    | nil => intro m h; exact absurd h (List.not_mem_nil a)
    | cons b rest ih =>
      intro m h
      rcases List.mem_cons.mp h with rfl | hr
      · rw [List.foldl_cons]
        apply foldl_mapSet_preserves
        rw [mapGet_mapSet, if_pos rfl]
        rfl
      · rw [List.foldl_cons]
        exact ih _ hr
  exact hgen agents [] ha

theorem initialHistories_get (agents : List DebateAgent)
    (hn : (agents.map (fun a => a.id)).Nodup) :
    ∀ X ∈ agents, mapGet (initialHistories agents) X.id =
      some [{ role := .system, content := interpolatePersona X.persona }] := by
  intro X hX
  exact foldl_mapSet_sets _ agents [] X hX hn

/-- Specification of the inner agent loop of one round under an oracle whose
every call returns a text: it succeeds, contributes exactly one turn per
agent entry (in agent order, all stamped with the current round), preserves
which history keys are present, leaves histories of ids outside the roster
untouched, and, when agent ids are unique, extends each roster agent history
by exactly its round prompt (built from the previous-round turns) and the
returned reply. -/
theorem agentsFold_ok (g : LlmCallInput → String) (maxTok : Nat) (q : String)
    (R round : Nat) (prev : List DebateTurn) :
    ∀ (as : List DebateAgent) (h : List (String × List ChatMessage))
      (acc : List DebateTurn),
      (∀ a ∈ as, (mapGet h a.id).isSome = true) →
      ∃ h' contribs,
        agentsFold (okOracle g) maxTok q R round prev as h acc =
          .ok (h', acc ++ contribs) ∧
        contribs.map (fun t => t.agentId) = as.map (fun a => a.id) ∧
        (∀ t ∈ contribs, t.round = round) ∧
        (∀ id, (mapGet h' id).isSome = (mapGet h id).isSome) ∧
        (∀ id, (∀ a ∈ as, ¬ a.id = id) → mapGet h' id = mapGet h id) ∧
        (∀ X ∈ as, (as.map (fun a => a.id)).Nodup →
          ∀ hist, mapGet h X.id = some hist →
          ∃ c, mapGet h' X.id = some (hist ++
            [{ role := .user, content := buildRoundPrompt
                { question := q, round := round, totalRounds := R, agent := X,
                  previousRoundTurns := prev } },
             { role := .assistant, content := c }])) := by
  intro as
  induction as with
  | nil =>
    intro h acc _
    refine ⟨h, [], by simp [agentsFold], rfl, by simp, fun _ => rfl, fun _ _ => rfl, ?_⟩
    intro X hX
    exact absurd hX (List.not_mem_nil X)
  | cons a rest ih =>
    intro h acc hsome
    obtain ⟨hist, hhist⟩ := Option.isSome_iff_exists.mp
      (hsome a (List.mem_cons_self a rest))
    set prompt := buildRoundPrompt
      { question := q, round := round, totalRounds := R, agent := a,
        previousRoundTurns := prev } with hprompt
    set content := g
      { provider := a.provider, model := a.model
        messages := hist ++ [{ role := .user, content := prompt }]
        temperature := some (0.5 : Rat), maxTokens := some maxTok } with hcontent
    set h1 := mapSet h a.id
      ((hist ++ [{ role := .user, content := prompt }]) ++
        [{ role := .assistant, content := content }]) with hh1
    have hsome1 : ∀ b ∈ rest, (mapGet h1 b.id).isSome = true := by
      intro b hb
      rw [hh1, mapGet_mapSet]
      by_cases hid : b.id = a.id
      · rw [if_pos hid]; rfl
      · rw [if_neg hid]
        exact hsome b (List.mem_cons_of_mem a hb)
    obtain ⟨h', contribs, heq, hproj, hround, hsomeiff, huntouched, hX⟩ :=
      ih h1 (acc ++ [mkDebateTurn round a content]) hsome1
    refine ⟨h', mkDebateTurn round a content :: contribs, ?_, ?_, ?_, ?_, ?_, ?_⟩
    · show agentsFold (okOracle g) maxTok q R round prev (a :: rest) h acc = _
      rw [agentsFold, hhist]
      show agentsFold (okOracle g) maxTok q R round prev rest h1
        (acc ++ [mkDebateTurn round a content]) = _
      rw [heq]
      rw [List.append_assoc]
      rfl
    · simp [hproj, mkDebateTurn]
    · intro t ht
      rcases List.mem_cons.mp ht with rfl | htc
      · rfl
      · exact hround t htc
    · intro id
      rw [hsomeiff id, hh1, mapGet_mapSet]
      by_cases hid : id = a.id
      · rw [if_pos hid, hid, hhist]
        rfl
      · rw [if_neg hid]
    · intro id hall
      rw [huntouched id (fun b hb => hall b (List.mem_cons_of_mem a hb))]
      rw [hh1, mapGet_mapSet]
      have hne : ¬ id = a.id := fun hc => hall a (List.mem_cons_self a rest) hc.symm
      rw [if_neg hne]
    · intro X hXmem hnodup hist0 hhist0
      rw [List.map_cons, List.nodup_cons] at hnodup
      rcases List.mem_cons.mp hXmem with rfl | hXr
      · have hid_out : ∀ b ∈ rest, ¬ b.id = X.id := by
          intro b hb hbid
          exact hnodup.1 (hbid ▸ List.mem_map_of_mem (fun a => a.id) hb)
        have hinj : hist = hist0 := by
          rw [hhist0] at hhist
          exact (Option.some.inj hhist).symm
        refine ⟨content, ?_⟩
        rw [huntouched X.id hid_out, hh1, mapGet_mapSet, if_pos rfl, hinj,
          List.append_assoc]
        rfl
      · have hXa : ¬ X.id = a.id := by
          intro hc
          exact hnodup.1 (hc ▸ List.mem_map_of_mem (fun a => a.id) hXr)
        have hkeep : mapGet h1 X.id = some hist0 := by
          rw [hh1, mapGet_mapSet, if_neg hXa]
          exact hhist0
        exact hX X hXr hnodup.2 hist0 hkeep

/-- Specification of one round under an always-answering oracle. -/
theorem runRound_ok (g : LlmCallInput → String) (maxTok : Nat) (q : String)
    (R : Nat) (agents : List DebateAgent) (round : Nat) (st : DebateState)
    (hsome : ∀ a ∈ agents, (mapGet st.histories a.id).isSome = true) :
    ∃ h' contribs,
      runRound (okOracle g) maxTok q R agents round st =
        .ok ⟨h', st.transcript ++ contribs⟩ ∧
      contribs.map (fun t => t.agentId) = agents.map (fun a => a.id) ∧
      (∀ t ∈ contribs, t.round = round) ∧
      (∀ id, (mapGet h' id).isSome = (mapGet st.histories id).isSome) ∧
      (∀ id, (∀ a ∈ agents, ¬ a.id = id) →
        mapGet h' id = mapGet st.histories id) ∧
      (∀ X ∈ agents, (agents.map (fun a => a.id)).Nodup →
        ∀ hist, mapGet st.histories X.id = some hist →
        ∃ c, mapGet h' X.id = some (hist ++
          [{ role := .user, content := buildRoundPrompt
              { question := q, round := round, totalRounds := R, agent := X,
                previousRoundTurns :=
                  st.transcript.filter (fun t => t.round = round - 1) } },
           { role := .assistant, content := c }])) := by
  obtain ⟨h', contribs, heq, hproj, hround, hsomeiff, huntouched, hX⟩ :=
    agentsFold_ok g maxTok q R round
      (st.transcript.filter (fun t => t.round = round - 1)) agents
      st.histories [] hsome
  refine ⟨h', contribs, ?_, hproj, hround, hsomeiff, huntouched, hX⟩
  unfold runRound
  dsimp only
  rw [heq]
  rfl

/-- Specification of the loop over rounds r0 .. r0+k-1 under an
always-answering oracle: it succeeds; the transcript grows by exactly one
turn per agent per round, rounds stay within bounds, per-round filters of
already completed rounds are stable, every processed round filters to
exactly the agent roster in order; and, with unique agent ids, each roster
agent history is extended by exactly one user prompt and one assistant reply
per round, the round-r prompt being built from the previous-round turns of
the final transcript. -/
theorem runRounds_ok (g : LlmCallInput → String) (maxTok : Nat) (q : String)
    (R : Nat) (agents : List DebateAgent) :
    ∀ (k r0 : Nat) (st : DebateState),
      1 ≤ r0 →
      (∀ a ∈ agents, (mapGet st.histories a.id).isSome = true) →
      (∀ t ∈ st.transcript, 1 ≤ t.round ∧ t.round < r0) →
      ∃ st', runRounds (okOracle g) maxTok q R agents (List.range' r0 k) st = .ok st' ∧
        (∀ a ∈ agents, (mapGet st'.histories a.id).isSome = true) ∧
        st'.transcript.length = st.transcript.length + k * agents.length ∧
        (∀ t ∈ st'.transcript, 1 ≤ t.round ∧ t.round < r0 + k) ∧
        (∀ i, i < r0 → st'.transcript.filter (fun t => t.round = i) =
          st.transcript.filter (fun t => t.round = i)) ∧
        (∀ i, r0 ≤ i → i < r0 + k →
          (st'.transcript.filter (fun t => t.round = i)).map (fun t => t.agentId) =
            agents.map (fun a => a.id)) ∧
        ((agents.map (fun a => a.id)).Nodup → ∀ X ∈ agents, ∀ hist,
          mapGet st.histories X.id = some hist →
          ∃ ext, mapGet st'.histories X.id = some (hist ++ ext) ∧
            ext.length = 2 * k ∧
            (∀ ridx, ridx < k → ∃ c,
              ext.get? (2 * ridx) = some
                { role := .user
                  content := buildRoundPrompt
                    { question := q
                      round := r0 + ridx
                      totalRounds := R
                      agent := X
                      previousRoundTurns :=
                        st'.transcript.filter (fun t => t.round = r0 + ridx - 1) } } ∧
              ext.get? (2 * ridx + 1) = some { role := .assistant, content := c })) := by
  intro k
  induction k with
  | zero =>
    intro r0 st hr0 hsome hbound
    refine ⟨st, rfl, hsome, by simp, ?_, fun _ _ => rfl, ?_, ?_⟩
    · intro t ht
      have := hbound t ht
      omega
    · intro i hi1 hi2
      omega
    · intro _ X _ hist hhist
      exact ⟨[], by simpa using hhist, rfl, fun ridx hr => absurd hr (Nat.not_lt_zero ridx)⟩
  | succ k ih =>
    intro r0 st hr0 hsome hbound
    obtain ⟨h1, contribs, heqRound, hproj, hroundEq, hsomeiff, _, hXround⟩ :=
      runRound_ok g maxTok q R agents r0 st hsome
    have hsome1 : ∀ a ∈ agents, (mapGet h1 a.id).isSome = true := by
      intro a ha
      rw [hsomeiff]
      exact hsome a ha
    have hbound1 : ∀ t ∈ st.transcript ++ contribs, 1 ≤ t.round ∧ t.round < r0 + 1 := by
      intro t ht
      rcases List.mem_append.mp ht with ht | ht
      · have := hbound t ht
        omega
      · rw [hroundEq t ht]
        omega
    obtain ⟨st', heqRec, hsome', hlen', hbound', hstable', hfilter', hhist'⟩ :=
      ih (r0 + 1) ⟨h1, st.transcript ++ contribs⟩ (by omega) hsome1 hbound1
    have hclen : contribs.length = agents.length := by
      have := congrArg List.length hproj
      simpa using this
    have hfilterC0 : ∀ i, i ≠ r0 →
        contribs.filter (fun t => t.round = i) = [] := by
      intro i hi
      rw [List.filter_eq_nil_iff]
      intro t ht
      simp only [decide_eq_true_eq]
      rw [hroundEq t ht]
      exact fun hc => hi hc.symm
    have hfilterC0self : contribs.filter (fun t => t.round = r0) = contribs := by
      rw [List.filter_eq_self]
      intro t ht
      simp only [decide_eq_true_eq]
      exact hroundEq t ht
    have hfilterT0 : ∀ i, r0 ≤ i →
        st.transcript.filter (fun t => t.round = i) = [] := by
      intro i hi
      rw [List.filter_eq_nil_iff]
      intro t ht
      simp only [decide_eq_true_eq]
      have := hbound t ht
      omega
    have hstPrev : st'.transcript.filter (fun t => t.round = r0 - 1) =
        st.transcript.filter (fun t => t.round = r0 - 1) := by
      rw [hstable' (r0 - 1) (by omega)]
      show (st.transcript ++ contribs).filter _ = _
      rw [List.filter_append, hfilterC0 (r0 - 1) (by omega), List.append_nil]
    refine ⟨st', ?_, hsome', ?_, ?_, ?_, ?_, ?_⟩
    · rw [List.range'_succ]
      simp only [runRounds]
      rw [heqRound]
      exact heqRec
    · rw [hlen']
      show (st.transcript ++ contribs).length + k * agents.length = _
      rw [List.length_append, hclen]
      ring
    · intro t ht
      have := hbound' t ht
      omega
    · intro i hi
      rw [hstable' i (by omega)]
      show (st.transcript ++ contribs).filter _ = _
      rw [List.filter_append, hfilterC0 i (by omega), List.append_nil]
    · intro i hi1 hi2
      by_cases hir : i = r0
      · subst hir
        rw [hstable' i (by omega)]
        show ((st.transcript ++ contribs).filter _).map _ = _
        rw [List.filter_append, hfilterT0 i (by omega), List.nil_append,
          hfilterC0self, hproj]
      · exact hfilter' i (by omega) (by omega)
    · intro hn X hXmem hist hhist
      obtain ⟨c0, hh1X⟩ := hXround X hXmem hn hist hhist
      obtain ⟨ext', hext', hlenext', hprompts'⟩ := hhist' hn X hXmem _ hh1X
      refine ⟨
        [{ role := .user
           content := buildRoundPrompt
             { question := q
               round := r0
               totalRounds := R
               agent := X
               previousRoundTurns :=
                 st.transcript.filter (fun t => t.round = r0 - 1) } },
         { role := .assistant, content := c0 }] ++ ext', ?_, ?_, ?_⟩
      · rw [← List.append_assoc]
        exact hext'
      · rw [List.length_append, hlenext']
        simp only [List.length_cons, List.length_nil]
        omega
      · intro ridx hr
        cases ridx with
        | zero =>
          refine ⟨c0, ?_, rfl⟩
          simp only [Nat.add_zero]
          rw [hstPrev]
          rfl
        | succ j =>
          obtain ⟨c, hcu, hca⟩ := hprompts' j (by omega)
          have e1 : r0 + 1 + j = r0 + (j + 1) := by omega
          rw [e1] at hcu
          refine ⟨c, ?_, ?_⟩
          · have e2 : 2 * (j + 1) = 2 * j + 1 + 1 := by ring
            rw [e2]
            show ext'.get? (2 * j) = _
            exact hcu
          · have e3 : 2 * (j + 1) + 1 = 2 * j + 1 + 1 + 1 := by ring
            rw [e3]
            show ext'.get? (2 * j + 1) = _
            exact hca

/-- Full-run structure of runDebate under an always-answering oracle, for a
nonempty roster and any round count. -/
theorem runDebate_structure (g : LlmCallInput → String) (maxTok : Nat)
    (input : DebateInput) (hA : input.agents ≠ []) :
    ∃ res, runDebate (okOracle g) maxTok input = .ok res ∧
      res.transcript.length = input.rounds * input.agents.length + 1 ∧
      (∀ t ∈ res.transcript, 1 ≤ t.round ∧ t.round ≤ input.rounds + 1) ∧
      (∀ i, 1 ≤ i → i ≤ input.rounds →
        ((res.transcript.filter (fun t => t.round = i)).map (fun t => t.agentId)) =
          input.agents.map (fun a => a.id)) ∧
      (res.transcript.filter (fun t => t.round = input.rounds + 1)).length = 1 ∧
      (∃ synth, res.transcript.getLast? = some synth ∧
        synth.round = input.rounds + 1 ∧ res.answer = synth.content) := by
  obtain ⟨a0, rest, hag⟩ := List.exists_cons_of_ne_nil hA
  obtain ⟨st', heqRounds, hsome', hlen', hbound', _, hfilter', _⟩ :=
    runRounds_ok g maxTok input.question input.rounds input.agents
      input.rounds 1 ⟨initialHistories input.agents, []⟩ (by omega)
      (initialHistories_isSome input.agents) (by simp)
  have hmod_mem : ((input.agents.find? (fun a => a.isModerator)).getD a0) ∈ input.agents := by
    cases hf : input.agents.find? (fun a => a.isModerator) with
    | none =>
      simp only [Option.getD]
      rw [hag]
      exact List.mem_cons_self a0 rest
    | some m =>
      simp only [Option.getD]
      exact List.mem_of_find?_eq_some hf
  obtain ⟨modHist, hmodHist⟩ := Option.isSome_iff_exists.mp
    (hsome' _ hmod_mem)
  set moderator := (input.agents.find? (fun a => a.isModerator)).getD a0 with hmoddef
  set synthTurn : DebateTurn :=
    { round := input.rounds + 1
      agentId := moderator.id
      agentName := moderator.name ++ " (Final Synthesis)"
      provider := moderator.provider
      model := moderator.model
      content := g
        { provider := moderator.provider
          model := moderator.model
          messages := modHist ++
            [{ role := .user
               content := buildModeratorPrompt input.question st'.transcript input.rounds }]
          temperature := some (0.2 : Rat)
          maxTokens := some 950 } } with hsynthdef
  refine ⟨{ answer := synthTurn.content, transcript := st'.transcript ++ [synthTurn] }, ?_, ?_, ?_, ?_, ?_, ?_⟩
  · unfold runDebate
    rw [hag]
    show (match runRounds (okOracle g) maxTok input.question input.rounds
        (a0 :: rest) (List.range' 1 input.rounds)
        ⟨initialHistories (a0 :: rest), []⟩ with
      | .error e => Except.error e
      | .ok st => _) = _
    rw [← hag, heqRounds]
    show (match mapGet st'.histories moderator.id with
      | none => _
      | some moderatorHistory => _) = _
    rw [hmodHist]
    rfl
  · rw [List.length_append, hlen']
    simp
  · intro t ht
    rcases List.mem_append.mp ht with ht | ht
    · have := hbound' t ht
      omega
    · rw [List.mem_singleton.mp ht]
      show 1 ≤ input.rounds + 1 ∧ input.rounds + 1 ≤ input.rounds + 1
      omega
  · intro i hi1 hi2
    rw [List.filter_append]
    have hsf : ([synthTurn].filter (fun t => t.round = i)) = [] := by
      rw [List.filter_eq_nil_iff]
      intro t ht
      rw [List.mem_singleton.mp ht]
      simp only [decide_eq_true_eq]
      show ¬ input.rounds + 1 = i
      omega
    rw [hsf, List.append_nil]
    exact hfilter' i hi1 (by omega)
  · rw [List.filter_append]
    have htf : (st'.transcript.filter (fun t => t.round = input.rounds + 1)) = [] := by
      rw [List.filter_eq_nil_iff]
      intro t ht
      simp only [decide_eq_true_eq]
      have := hbound' t ht
      omega
    rw [htf, List.nil_append]
    have hsf : ([synthTurn].filter (fun t => t.round = input.rounds + 1)) = [synthTurn] := by
      rw [List.filter_eq_self]
      intro t ht
      rw [List.mem_singleton.mp ht]
      simp
    rw [hsf]
    rfl
  · exact ⟨synthTurn, List.getLast?_concat _, rfl, rfl⟩

/-- C3: for every debate with at least one round and at least one agent in
which every backend call returns a text, the transcript holds exactly
rounds-times-agents turns with round numbers in 1..rounds — exactly one turn
per roster agent per round, in roster order, rounds contiguous from 1 —
plus exactly one synthesis turn at round rounds+1, which is the final turn,
and the debate answer equals that synthesis turn content. -/
theorem c3_debate_structure (g : LlmCallInput → String) (maxTok : Nat)
    (input : DebateInput) (hA : 1 ≤ input.agents.length)
    (hR : 1 ≤ input.rounds) :
    ∃ res, runDebate (okOracle g) maxTok input = .ok res ∧
      res.transcript.length = input.rounds * input.agents.length + 1 ∧
      (∀ t ∈ res.transcript, 1 ≤ t.round ∧ t.round ≤ input.rounds + 1) ∧
      (∀ i, 1 ≤ i → i ≤ input.rounds →
        ((res.transcript.filter (fun t => t.round = i)).map (fun t => t.agentId)) =
          input.agents.map (fun a => a.id)) ∧
      (res.transcript.filter (fun t => t.round = input.rounds + 1)).length = 1 ∧
      (∃ synth, res.transcript.getLast? = some synth ∧
        synth.round = input.rounds + 1 ∧ res.answer = synth.content) := by
  have hne : input.agents ≠ [] := by
    intro hc
    rw [hc] at hA
    simp at hA
  exact runDebate_structure g maxTok input hne

/-- Witness for C3: a four-agent two-round debate under a concrete oracle. -/
theorem c3_debate_structure_witness :
    1 ≤ (buildSameModelRoleAgents .gemini "g").length ∧ 1 ≤ 2 ∧
    (∃ res, runDebate (okOracle (fun c => "reply" ++ toString c.messages.length)) 450
        { question := "q", agents := buildSameModelRoleAgents .gemini "g", rounds := 2 } = .ok res ∧
      res.transcript.length = 2 * (buildSameModelRoleAgents .gemini "g").length + 1 ∧
      (∀ t ∈ res.transcript, 1 ≤ t.round ∧ t.round ≤ 2 + 1) ∧
      (∀ i, 1 ≤ i → i ≤ 2 →
        ((res.transcript.filter (fun t => t.round = i)).map (fun t => t.agentId)) =
          (buildSameModelRoleAgents .gemini "g").map (fun a => a.id)) ∧
      (res.transcript.filter (fun t => t.round = 2 + 1)).length = 1 ∧
      (∃ synth, res.transcript.getLast? = some synth ∧
        synth.round = 2 + 1 ∧ res.answer = synth.content)) :=
  ⟨by decide, by decide,
    c3_debate_structure (fun c => "reply" ++ toString c.messages.length) 450
      { question := "q", agents := buildSameModelRoleAgents .gemini "g", rounds := 2 }
      (by decide) (by decide)⟩

/-- C9: runDebateCondition clamps the configured round count with
Math.max(1, rounds) before running the debate: a configured value of at most
0 is clamped to 1, so the debate still runs exactly one round plus the
synthesis turn, while a configured value of at least 1 passes through
unchanged to the debate engine. -/
theorem c9_round_clamp (g : LlmCallInput → String) (maxTok : Nat)
    (input : DebateConditionInput) (hA : 1 ≤ input.agents.length) :
    (input.rounds ≤ 0 → (max 1 input.rounds).toNat = 1) ∧
    (1 ≤ input.rounds → (max 1 input.rounds).toNat = input.rounds.toNat) ∧
    (input.rounds ≤ 0 →
      ∃ r, runDebateCondition (okOracle g) maxTok input = .ok r ∧
        r.transcript.length = 1 * input.agents.length + 1 ∧
        (∀ i, 1 ≤ i → i ≤ 1 →
          ((r.transcript.filter (fun t => t.round = i)).map (fun t => t.agentId)) =
            input.agents.map (fun a => a.id)) ∧
        (∃ synth, r.transcript.getLast? = some synth ∧
          synth.round = 2 ∧ r.answer = synth.content)) ∧
    (1 ≤ input.rounds →
      runDebateCondition (okOracle g) maxTok input =
        match runDebate (okOracle g) maxTok
          { question := input.question, agents := input.agents,
            rounds := input.rounds.toNat } with
        | .error e => .error e
        | .ok debate => .ok
            { conditionId := input.conditionId
              conditionLabel := input.conditionLabel
              answer := debate.answer
              transcript := debate.transcript }) := by
  have hne : input.agents ≠ [] := by
    intro hc
    rw [hc] at hA
    simp at hA
  refine ⟨fun h => by omega, fun h => by omega, ?_, ?_⟩
  · intro hle
    have hclamp : (max 1 input.rounds).toNat = 1 := by omega
    obtain ⟨res, heq, hlen, _, hfilter, _, hsynth⟩ :=
      runDebate_structure g maxTok
        { question := input.question, agents := input.agents,
          rounds := (max 1 input.rounds).toNat } hne
    rw [hclamp] at heq hlen hfilter hsynth
    refine ⟨{ conditionId := input.conditionId
              conditionLabel := input.conditionLabel
              answer := res.answer
              transcript := res.transcript }, ?_, hlen, hfilter, ?_⟩
    · unfold runDebateCondition
      rw [hclamp, heq]
    · obtain ⟨synth, h1, h2, h3⟩ := hsynth
      exact ⟨synth, h1, h2, h3⟩
  · intro hge
    have hclamp : max 1 input.rounds = input.rounds := by omega
    unfold runDebateCondition
    rw [hclamp]

/-- Witness for C9: a roster of four agents with a configured round count of
minus two still debates for one round plus synthesis. -/
theorem c9_round_clamp_witness :
    1 ≤ (buildSameModelRoleAgents .gemini "g").length ∧
    ((-2 : Int) ≤ 0 → (max 1 (-2 : Int)).toNat = 1) ∧
    ((-2 : Int) ≤ 0 →
      ∃ r, runDebateCondition (okOracle (fun _ => "text")) 450
        { conditionId := .multi_same_model_roles, conditionLabel := "lbl",
          question := "q", agents := buildSameModelRoleAgents .gemini "g",
          rounds := (-2 : Int) } = .ok r ∧
        r.transcript.length = 1 * (buildSameModelRoleAgents .gemini "g").length + 1 ∧
        (∀ i, 1 ≤ i → i ≤ 1 →
          ((r.transcript.filter (fun t => t.round = i)).map (fun t => t.agentId)) =
            (buildSameModelRoleAgents .gemini "g").map (fun a => a.id)) ∧
        (∃ synth, r.transcript.getLast? = some synth ∧
          synth.round = 2 ∧ r.answer = synth.content)) :=
  ⟨by decide,
    (c9_round_clamp (fun _ => "text") 450
      { conditionId := .multi_same_model_roles, conditionLabel := "lbl",
        question := "q", agents := buildSameModelRoleAgents .gemini "g",
        rounds := (-2 : Int) } (by decide)).1,
    (c9_round_clamp (fun _ => "text") 450
      { conditionId := .multi_same_model_roles, conditionLabel := "lbl",
        question := "q", agents := buildSameModelRoleAgents .gemini "g",
        rounds := (-2 : Int) } (by decide)).2.2.1⟩

/-- With at least two agents carrying distinct ids, some roster agent other
than X exists. -/
theorem exists_other_agent (agents : List DebateAgent)
    (hnodup : (agents.map (fun a => a.id)).Nodup) (hA2 : 2 ≤ agents.length)
    (X : DebateAgent) (hX : X ∈ agents) :
    ∃ Y ∈ agents, Y.id ≠ X.id := by
  rcases agents with _ | ⟨a, _ | ⟨b, rest⟩⟩
  · simp at hA2
  · simp at hA2
  · have hab : a.id ≠ b.id := by
      rw [List.map_cons, List.map_cons, List.nodup_cons] at hnodup
      intro hc
      exact hnodup.1 (hc ▸ List.mem_cons_self b.id _)
    by_cases hxa : X.id = a.id
    · refine ⟨b, List.mem_cons_of_mem a (List.mem_cons_self b rest), ?_⟩
      rw [hxa]
      exact fun hc => hab hc.symm
    · exact ⟨a, List.mem_cons_self a _, fun hc => hxa hc.symm⟩

/-- C4: in every debate run with unique agent ids, at least two agents and
enough rounds, the round-r prompt recorded in agent X history (the user
message at position 2r-1, for 2 ≤ r ≤ rounds) is built from exactly the
round r-1 turns of the transcript; its peer-context block is the
newline-joined list of one truncated entry per round r-1 turn of every agent
other than X, and no turn of X itself contributes an entry (X own round r-1
turn exists and is filtered out). -/
theorem c4_peer_context (g : LlmCallInput → String) (maxTok : Nat) (q : String)
    (R : Nat) (agents : List DebateAgent)
    (hnodup : (agents.map (fun a => a.id)).Nodup)
    (hA2 : 2 ≤ agents.length)
    (r : Nat) (hr2 : 2 ≤ r) (hrR : r ≤ R)
    (X : DebateAgent) (hX : X ∈ agents) :
    ∃ st', runRounds (okOracle g) maxTok q R agents (List.range' 1 R)
        ⟨initialHistories agents, []⟩ = .ok st' ∧
    ∃ hist, mapGet st'.histories X.id = some hist ∧
    ∃ prompt, hist.get? (2 * r - 1) = some { role := .user, content := prompt } ∧
    ∃ prevTurns, prevTurns = st'.transcript.filter (fun t => t.round = r - 1) ∧
      prompt = buildRoundPrompt
        { question := q, round := r, totalRounds := R, agent := X,
          previousRoundTurns := prevTurns } ∧
      prevTurns.map (fun t => t.agentId) = agents.map (fun a => a.id) ∧
      formatPeerContext prevTurns X.id = String.intercalate "\n"
        ((prevTurns.filter (fun t => t.agentId ≠ X.id)).map peerEntry) ∧
      (∀ Y ∈ agents, Y.id ≠ X.id →
        ∃ t ∈ prevTurns.filter (fun t => t.agentId ≠ X.id), t.agentId = Y.id ∧
          peerEntry t ∈ (prevTurns.filter (fun t => t.agentId ≠ X.id)).map peerEntry) ∧
      (∃ tX ∈ prevTurns, tX.agentId = X.id ∧
        tX ∉ prevTurns.filter (fun t => t.agentId ≠ X.id)) ∧
      (∀ t ∈ prevTurns, t.agentId = X.id →
        t ∉ prevTurns.filter (fun t => t.agentId ≠ X.id)) := by
  obtain ⟨st', heqRounds, _, _, _, _, hfilter', hhist'⟩ :=
    runRounds_ok g maxTok q R agents R 1 ⟨initialHistories agents, []⟩
      (by omega) (initialHistories_isSome agents) (by simp)
  have hseed := initialHistories_get agents hnodup X hX
  obtain ⟨ext, hext, hlenext, hprompts⟩ := hhist' hnodup X hX _ hseed
  obtain ⟨c, hcu, _⟩ := hprompts (r - 1) (by omega)
  have hridx : 1 + (r - 1) = r := by omega
  rw [hridx] at hcu
  set prevTurns := st'.transcript.filter (fun t => t.round = r - 1) with hprevdef
  have hprevIds : prevTurns.map (fun t => t.agentId) = agents.map (fun a => a.id) :=
    hfilter' (r - 1) (by omega) (by omega)
  have hmemTurn : ∀ Y ∈ agents, ∃ t ∈ prevTurns, t.agentId = Y.id := by
    intro Y hY
    have : Y.id ∈ prevTurns.map (fun t => t.agentId) := by
      rw [hprevIds]
      exact List.mem_map_of_mem (fun a => a.id) hY
    obtain ⟨t, ht, hteq⟩ := List.mem_map.mp this
    exact ⟨t, ht, hteq⟩
  set seedMsg : ChatMessage :=
    { role := .system, content := interpolatePersona X.persona } with hseeddef
  have hlen1 : ([seedMsg] : List ChatMessage).length ≤ 2 * r - 1 := by
    simp
    omega
  have harith : 2 * r - 1 - ([seedMsg] : List ChatMessage).length = 2 * (r - 1) := by
    simp
    omega
  have hpeersne : ∃ t0, t0 ∈ prevTurns.filter (fun t => t.agentId ≠ X.id) := by
    obtain ⟨Y, hY, hYne⟩ := exists_other_agent agents hnodup hA2 X hX
    obtain ⟨t, ht, hteq⟩ := hmemTurn Y hY
    refine ⟨t, List.mem_filter.mpr ⟨ht, ?_⟩⟩
    simp only [decide_eq_true_eq]
    rw [hteq]
    exact hYne
  refine ⟨st', heqRounds, [seedMsg] ++ ext, hext,
    buildRoundPrompt
      { question := q
        round := r
        totalRounds := R
        agent := X
        previousRoundTurns := prevTurns }, ?_, prevTurns, rfl, rfl, hprevIds,
    ?_, ?_, ?_, ?_⟩
  · rw [List.get?_append_right hlen1, harith]
    exact hcu
  · unfold formatPeerContext
    dsimp only
    obtain ⟨t0, ht0⟩ := hpeersne
    have hne : ¬ ((prevTurns.filter (fun turn => turn.agentId ≠ X.id)).isEmpty = true) := by
      rw [List.isEmpty_iff]
      intro hc
      rw [hc] at ht0
      exact List.not_mem_nil t0 ht0
    rw [if_neg hne]
  · intro Y hY hYne
    obtain ⟨t, ht, hteq⟩ := hmemTurn Y hY
    have htf : t ∈ prevTurns.filter (fun t => t.agentId ≠ X.id) := by
      refine List.mem_filter.mpr ⟨ht, ?_⟩
      simp only [decide_eq_true_eq]
      rw [hteq]
      exact hYne
    exact ⟨t, htf, hteq, List.mem_map_of_mem peerEntry htf⟩
  · obtain ⟨t, ht, hteq⟩ := hmemTurn X hX
    refine ⟨t, ht, hteq, ?_⟩
    intro hmem
    have hneq := (List.mem_filter.mp hmem).2
    simp only [decide_eq_true_eq] at hneq
    exact hneq hteq
  · intro t ht hteq hmem
    have hneq := (List.mem_filter.mp hmem).2
    simp only [decide_eq_true_eq] at hneq
    exact hneq hteq

/-- Witness for C4: the second agent of the four-role roster in a two-round
debate, at round 2. -/
theorem c4_peer_context_witness :
    ((buildSameModelRoleAgents .gemini "g").map (fun a => a.id)).Nodup ∧
    2 ≤ (buildSameModelRoleAgents .gemini "g").length ∧
    (buildSameModelRoleAgents .gemini "g").get ⟨1, by decide⟩ ∈
      buildSameModelRoleAgents .gemini "g" ∧
    (∃ st', runRounds (okOracle (fun _ => "text")) 450 "q" 2
        (buildSameModelRoleAgents .gemini "g") (List.range' 1 2)
        ⟨initialHistories (buildSameModelRoleAgents .gemini "g"), []⟩ = .ok st' ∧
    ∃ hist, mapGet st'.histories
        ((buildSameModelRoleAgents .gemini "g").get ⟨1, by decide⟩).id = some hist ∧
    ∃ prompt, hist.get? (2 * 2 - 1) = some { role := .user, content := prompt } ∧
    ∃ prevTurns, prevTurns = st'.transcript.filter (fun t => t.round = 2 - 1) ∧
      prompt = buildRoundPrompt
        { question := "q", round := 2, totalRounds := 2,
          agent := (buildSameModelRoleAgents .gemini "g").get ⟨1, by decide⟩,
          previousRoundTurns := prevTurns } ∧
      prevTurns.map (fun t => t.agentId) =
        (buildSameModelRoleAgents .gemini "g").map (fun a => a.id) ∧
      formatPeerContext prevTurns
          ((buildSameModelRoleAgents .gemini "g").get ⟨1, by decide⟩).id =
        String.intercalate "\n"
          ((prevTurns.filter (fun t => t.agentId ≠
            ((buildSameModelRoleAgents .gemini "g").get ⟨1, by decide⟩).id)).map peerEntry) ∧
      (∀ Y ∈ buildSameModelRoleAgents .gemini "g",
        Y.id ≠ ((buildSameModelRoleAgents .gemini "g").get ⟨1, by decide⟩).id →
        ∃ t ∈ prevTurns.filter (fun t => t.agentId ≠
            ((buildSameModelRoleAgents .gemini "g").get ⟨1, by decide⟩).id),
          t.agentId = Y.id ∧
          peerEntry t ∈ (prevTurns.filter (fun t => t.agentId ≠
            ((buildSameModelRoleAgents .gemini "g").get ⟨1, by decide⟩).id)).map peerEntry) ∧
      (∃ tX ∈ prevTurns,
        tX.agentId = ((buildSameModelRoleAgents .gemini "g").get ⟨1, by decide⟩).id ∧
        tX ∉ prevTurns.filter (fun t => t.agentId ≠
          ((buildSameModelRoleAgents .gemini "g").get ⟨1, by decide⟩).id)) ∧
      (∀ t ∈ prevTurns,
        t.agentId = ((buildSameModelRoleAgents .gemini "g").get ⟨1, by decide⟩).id →
        t ∉ prevTurns.filter (fun t => t.agentId ≠
          ((buildSameModelRoleAgents .gemini "g").get ⟨1, by decide⟩).id))) :=
  ⟨by decide, by decide, by decide,
    c4_peer_context (fun _ => "text") 450 "q" 2
      (buildSameModelRoleAgents .gemini "g") (by decide) (by decide)
      2 (by decide) (by decide)
      ((buildSameModelRoleAgents .gemini "g").get ⟨1, by decide⟩) (by decide)⟩

/-! ## Lemmas about the Gemini adapter -/

theorem retryable_not_notfound (e : GemThrow)
    (h : isRetryableGeminiError (some e) = true) :
    isModelNotFoundError (some e) = false := by
  cases e with
  | plainError m => rfl
  | callError ce =>
    simp only [isRetryableGeminiError, decide_eq_true_eq] at h
    simp only [isModelNotFoundError, decide_eq_false_iff_not]
    omega

theorem attemptLoop_abort (cfg : GeminiConfig) (oracle : GemOracle)
    (model : String) (fuel : Nat) (cur : Option GemThrow) (e : GemThrow)
    (h0 : oracle model 0 = .error e)
    (hnr : isRetryableGeminiError (some e) = false) :
    attemptLoop cfg oracle model 0 (fuel + 1) cur =
      (.error (some e), [.sleepMs cfg.spacingMs, .call model 0]) := by
  rw [attemptLoop, h0]
  simp [hnr]

theorem attemptLoop_allfail (cfg : GeminiConfig) (oracle : GemOracle)
    (model : String) (errs : Nat → GemThrow)
    (hret : ∀ a, isRetryableGeminiError (some (errs a)) = true) :
    ∀ (fuel attempt : Nat) (cur : Option GemThrow),
      (∀ a, attempt ≤ a → a < attempt + fuel → oracle model a = .error (errs a)) →
      ((attempt = 0 ∧ cur = none) ∨ (1 ≤ attempt ∧ cur = some (errs (attempt - 1)))) →
      attemptLoop cfg oracle model attempt fuel cur =
        (.error (if fuel = 0 then cur else some (errs (attempt + fuel - 1))),
         (List.range' attempt fuel).flatMap (fun a =>
           [.sleepMs (if a = 0 then cfg.spacingMs
             else computeRetryDelay cfg (some (errs (a - 1))) a),
            .call model a])) := by
  intro fuel
  induction fuel with
  | zero =>
    intro attempt cur _ _
    rfl
  | succ fuel ih =>
    intro attempt cur hfail hcur
    rw [attemptLoop, hfail attempt (Nat.le_refl attempt) (by omega)]
    simp only [hret attempt, if_true]
    have hrec := ih (attempt + 1) (some (errs attempt))
      (fun a ha1 ha2 => hfail a (by omega) (by omega))
      (Or.inr ⟨by omega, by simp⟩)
    rw [hrec]
    have hdelay : (if attempt = 0 then cfg.spacingMs
        else computeRetryDelay cfg cur attempt) =
        (if attempt = 0 then cfg.spacingMs
          else computeRetryDelay cfg (some (errs (attempt - 1))) attempt) := by
      rcases hcur with ⟨h1, h2⟩ | ⟨h1, h2⟩
      · rw [h1]
        simp
      · rw [h2]
    rw [hdelay]
    have herr : (if fuel = 0 then some (errs attempt)
        else some (errs (attempt + 1 + fuel - 1))) =
        some (errs (attempt + (fuel + 1) - 1)) := by
      cases fuel with
      | zero => simp
      | succ f =>
        have : attempt + 1 + (f + 1) - 1 = attempt + (f + 1 + 1) - 1 := by omega
        rw [if_neg (by omega), this]
    rw [herr]
    have hrange : List.range' attempt (fuel + 1) = attempt :: List.range' (attempt + 1) fuel :=
      List.range'_succ attempt fuel 1
    rw [hrange]
    rfl

theorem candidatesLoop_advance_on_notfound (cfg : GeminiConfig)
    (oracle : GemOracle) (model : String) (rest : List String)
    (p l : Option GemThrow) (e : GemThrow)
    (h0 : oracle model 0 = .error e)
    (hnf : isModelNotFoundError (some e) = true)
    (hnr : isRetryableGeminiError (some e) = false) :
    candidatesLoop cfg oracle (model :: rest) p l =
      ((candidatesLoop cfg oracle rest p (some e)).1,
       [.sleepMs cfg.spacingMs, .call model 0] ++
         (candidatesLoop cfg oracle rest p (some e)).2) := by
  rw [candidatesLoop]
  rw [attemptLoop_abort cfg oracle model cfg.maxRetries none e h0 hnr]
  simp [hnf]

theorem candidatesLoop_advance_after_retries (cfg : GeminiConfig)
    (oracle : GemOracle) (model : String) (rest : List String)
    (p l : Option GemThrow) (errs : Nat → GemThrow)
    (hret : ∀ a, isRetryableGeminiError (some (errs a)) = true)
    (hfail : ∀ a, a < cfg.maxRetries + 1 → oracle model a = .error (errs a)) :
    candidatesLoop cfg oracle (model :: rest) p l =
      ((candidatesLoop cfg oracle rest
          (some (errs cfg.maxRetries)) (some (errs cfg.maxRetries))).1,
       ((List.range' 0 (cfg.maxRetries + 1)).flatMap (fun a =>
         [.sleepMs (if a = 0 then cfg.spacingMs
           else computeRetryDelay cfg (some (errs (a - 1))) a),
          .call model a])) ++
         (candidatesLoop cfg oracle rest
           (some (errs cfg.maxRetries)) (some (errs cfg.maxRetries))).2) := by
  rw [candidatesLoop]
  rw [attemptLoop_allfail cfg oracle model errs hret (cfg.maxRetries + 1) 0 none
    (fun a h1 h2 => hfail a (by omega)) (Or.inl ⟨rfl, rfl⟩)]
  have hmax : (0 + (cfg.maxRetries + 1) - 1) = cfg.maxRetries := by omega
  rw [if_neg (by omega), hmax]
  have hnf : isModelNotFoundError (some (errs cfg.maxRetries)) = false :=
    retryable_not_notfound _ (hret cfg.maxRetries)
  simp [hnf, hret cfg.maxRetries]

theorem candidatesLoop_stops (cfg : GeminiConfig) (oracle : GemOracle)
    (model : String) (rest : List String) (p l : Option GemThrow) (e : GemThrow)
    (h0 : oracle model 0 = .error e)
    (hnr : isRetryableGeminiError (some e) = false)
    (hnf : isModelNotFoundError (some e) = false)
    (hnq : isQuotaError (some e) = false) :
    candidatesLoop cfg oracle (model :: rest) p l =
      (.error (some e, some e), [.sleepMs cfg.spacingMs, .call model 0]) := by
  rw [candidatesLoop]
  rw [attemptLoop_abort cfg oracle model cfg.maxRetries none e h0 hnr]
  simp [hnf, hnq, hnr]

theorem notfound_not_retryable (e : GemThrow)
    (h : isModelNotFoundError (some e) = true) :
    isRetryableGeminiError (some e) = false := by
  cases e with
  | plainError m => rfl
  | callError ce =>
    simp only [isModelNotFoundError, decide_eq_true_eq] at h
    simp only [isRetryableGeminiError, decide_eq_false_iff_not]
    omega

/-- C5 counterexample: with a primary model answering 429 on every attempt
and one fallback candidate that succeeds, the adapter exhausts the three
attempts on the primary model and then advances to the fallback candidate
and returns its text — a quota failure does advance the candidate. -/
theorem c5_counterexample :
    (callGeminiWithFallbackAndRetries gemCfgTwo gemOracle429 "m1").1 = .ok "hi" ∧
    (callGeminiWithFallbackAndRetries gemCfgTwo gemOracle429 "m1").2 =
      [.sleepMs 2500, .call "m1" 0, .sleepMs 3000, .call "m1" 1,
       .sleepMs 6000, .call "m1" 2, .sleepMs 2500, .call "m2" 0] ∧
    GemEvent.call "m2" 0 ∈ (callGeminiWithFallbackAndRetries gemCfgTwo gemOracle429 "m1").2 := by
  refine ⟨?_, ?_, ?_⟩ <;> decide

/-- C5 (amended): a model-not-found failure advances to the next candidate
immediately, after a single attempt, with attempt counting reset by the next
candidate loop; a quota/rate-limit (or other retryable) failure advances to
the next candidate only after all retries for the current candidate are
exhausted; a failure that is neither retryable, nor quota, nor
model-not-found stops the fallback loop at the current candidate. -/
theorem c5_fallback_policy (cfg : GeminiConfig) (oracle : GemOracle)
    (model : String) (rest : List String) (p l : Option GemThrow) :
    (∀ e, oracle model 0 = .error e → isModelNotFoundError (some e) = true →
      candidatesLoop cfg oracle (model :: rest) p l =
        ((candidatesLoop cfg oracle rest p (some e)).1,
         [.sleepMs cfg.spacingMs, .call model 0] ++
           (candidatesLoop cfg oracle rest p (some e)).2)) ∧
    (∀ errs : Nat → GemThrow,
      (∀ a, isRetryableGeminiError (some (errs a)) = true) →
      (∀ a, a < cfg.maxRetries + 1 → oracle model a = .error (errs a)) →
      candidatesLoop cfg oracle (model :: rest) p l =
        ((candidatesLoop cfg oracle rest
            (some (errs cfg.maxRetries)) (some (errs cfg.maxRetries))).1,
         ((List.range' 0 (cfg.maxRetries + 1)).flatMap (fun a =>
           [.sleepMs (if a = 0 then cfg.spacingMs
             else computeRetryDelay cfg (some (errs (a - 1))) a),
            .call model a])) ++
           (candidatesLoop cfg oracle rest
             (some (errs cfg.maxRetries)) (some (errs cfg.maxRetries))).2)) ∧
    (∀ e, oracle model 0 = .error e → isRetryableGeminiError (some e) = false →
      isModelNotFoundError (some e) = false → isQuotaError (some e) = false →
      candidatesLoop cfg oracle (model :: rest) p l =
        (.error (some e, some e), [.sleepMs cfg.spacingMs, .call model 0])) := by
  refine ⟨?_, ?_, ?_⟩
  · intro e h0 hnf
    exact candidatesLoop_advance_on_notfound cfg oracle model rest p l e h0 hnf
      (notfound_not_retryable e hnf)
  · intro errs hret hfail
    exact candidatesLoop_advance_after_retries cfg oracle model rest p l errs hret hfail
  · intro e h0 hnr hnf hnq
    exact candidatesLoop_stops cfg oracle model rest p l e h0 hnr hnf hnq

/-- Witness for the amended C5, at the three concrete failure scenarios. -/
theorem c5_fallback_policy_witness :
    (gemOracle404 "m1" 0 = .error gemErr404 ∧
      isModelNotFoundError (some gemErr404) = true ∧
      candidatesLoop gemCfgTwo gemOracle404 ("m1" :: ["m2"]) none none =
        ((candidatesLoop gemCfgTwo gemOracle404 ["m2"] none (some gemErr404)).1,
         [.sleepMs gemCfgTwo.spacingMs, .call "m1" 0] ++
           (candidatesLoop gemCfgTwo gemOracle404 ["m2"] none (some gemErr404)).2)) ∧
    (candidatesLoop gemCfgTwo gemOracle429 ("m1" :: ["m2"]) none none =
      ((candidatesLoop gemCfgTwo gemOracle429 ["m2"]
          (some gemErr429) (some gemErr429)).1,
       ((List.range' 0 (gemCfgTwo.maxRetries + 1)).flatMap (fun a =>
         [.sleepMs (if a = 0 then gemCfgTwo.spacingMs
           else computeRetryDelay gemCfgTwo (some gemErr429) a),
          .call "m1" a])) ++
         (candidatesLoop gemCfgTwo gemOracle429 ["m2"]
           (some gemErr429) (some gemErr429)).2)) ∧
    (candidatesLoop gemCfgTwo gemOracle400 ("m1" :: ["m2"]) none none =
      (.error (some gemErr400, some gemErr400),
       [.sleepMs gemCfgTwo.spacingMs, .call "m1" 0])) :=
  ⟨⟨by decide, by decide,
    (c5_fallback_policy gemCfgTwo gemOracle404 "m1" ["m2"] none none).1
      gemErr404 (by decide) (by decide)⟩,
   (c5_fallback_policy gemCfgTwo gemOracle429 "m1" ["m2"] none none).2.1
      (fun _ => gemErr429)
      (fun _ => (by decide : isRetryableGeminiError (some gemErr429) = true))
      (fun a _ => rfl),
   (c5_fallback_policy gemCfgTwo gemOracle400 "m1" ["m2"] none none).2.2
      gemErr400 (by decide) (by decide) (by decide) (by decide)⟩

/-- C6: for a retryable failure stream the inner loop makes exactly
maxRetries + 1 fetches, sleeping the fixed spacing before attempt 0 and
computeRetryDelay(previous error, a) before each retry attempt a, then
stops; computeRetryDelay is max(server hint, minimum spacing) when the error
carries a RetryInfo hint and max(base backoff * 2^(a-1), minimum spacing)
otherwise; and a non-retryable failure (such as a 404) aborts the current
model attempts after a single fetch. -/
theorem c6_retry_schedule (cfg : GeminiConfig) (oracle : GemOracle)
    (model : String) :
    (∀ errs : Nat → GemThrow,
      (∀ a, isRetryableGeminiError (some (errs a)) = true) →
      (∀ a, a < cfg.maxRetries + 1 → oracle model a = .error (errs a)) →
      attemptLoop cfg oracle model 0 (cfg.maxRetries + 1) none =
        (.error (some (errs cfg.maxRetries)),
         (List.range' 0 (cfg.maxRetries + 1)).flatMap (fun a =>
           [.sleepMs (if a = 0 then cfg.spacingMs
             else computeRetryDelay cfg (some (errs (a - 1))) a),
            .call model a]))) ∧
    (∀ (a : Nat) (e : GemThrow) (hint : Nat),
      extractRetryDelayMs (some e) = some hint →
      computeRetryDelay cfg (some e) a = max hint cfg.spacingMs) ∧
    (∀ (a : Nat) (e : GemThrow),
      extractRetryDelayMs (some e) = none →
      computeRetryDelay cfg (some e) a =
        max (cfg.backoffMs * 2 ^ (a - 1)) cfg.spacingMs) ∧
    (∀ e, oracle model 0 = .error e → isRetryableGeminiError (some e) = false →
      attemptLoop cfg oracle model 0 (cfg.maxRetries + 1) none =
        (.error (some e), [.sleepMs cfg.spacingMs, .call model 0])) := by
  refine ⟨?_, ?_, ?_, ?_⟩
  · intro errs hret hfail
    have h := attemptLoop_allfail cfg oracle model errs hret (cfg.maxRetries + 1) 0
      none (fun a h1 h2 => hfail a (by omega)) (Or.inl ⟨rfl, rfl⟩)
    rw [h, if_neg (by omega)]
    have hmax : 0 + (cfg.maxRetries + 1) - 1 = cfg.maxRetries := by omega
    rw [hmax]
  · intro a e hint hext
    unfold computeRetryDelay
    rw [hext]
  · intro a e hext
    unfold computeRetryDelay
    rw [hext]
  · intro e h0 hnr
    exact attemptLoop_abort cfg oracle model cfg.maxRetries none e h0 hnr

/-- Witness for C6: the 5 second RetryInfo hint yields a delay of
max(5000 ms, spacing) = 5000 ms at attempt 1; without a hint attempt 2 waits
max(3000 * 2, 2500) = 6000 ms; the all-429 stream is fetched exactly three
times; a 404 aborts after one fetch. -/
theorem c6_retry_schedule_witness :
    (extractRetryDelayMs (some gemErr429Hint) = some 5000 ∧
      computeRetryDelay {} (some gemErr429Hint) 1 = max 5000 GeminiConfig.spacingMs {} ∧
      computeRetryDelay {} (some gemErr429Hint) 1 = 5000) ∧
    (extractRetryDelayMs (some gemErr429) = none ∧
      computeRetryDelay {} (some gemErr429) 2 =
        max (GeminiConfig.backoffMs {} * 2 ^ (2 - 1)) (GeminiConfig.spacingMs {}) ∧
      computeRetryDelay {} (some gemErr429) 2 = 6000) ∧
    attemptLoop {} gemOracle429 "m1" 0 (GeminiConfig.maxRetries {} + 1) none =
      (.error (some gemErr429),
       (List.range' 0 (GeminiConfig.maxRetries {} + 1)).flatMap (fun a =>
         [.sleepMs (if a = 0 then GeminiConfig.spacingMs {}
           else computeRetryDelay {} (some gemErr429) a),
          .call "m1" a])) ∧
    attemptLoop {} gemOracle404 "m1" 0 (GeminiConfig.maxRetries {} + 1) none =
      (.error (some gemErr404), [.sleepMs (GeminiConfig.spacingMs {}), .call "m1" 0]) :=
  ⟨⟨by decide,
    (c6_retry_schedule {} gemOracle429 "m1").2.1 1 gemErr429Hint 5000 (by decide),
    by decide⟩,
   ⟨by decide,
    (c6_retry_schedule {} gemOracle429 "m1").2.2.1 2 gemErr429 (by decide),
    by decide⟩,
   (c6_retry_schedule {} gemOracle429 "m1").1
    (fun _ => gemErr429)
    (fun _ => (by decide : isRetryableGeminiError (some gemErr429) = true))
    (fun a _ => rfl),
   (c6_retry_schedule {} gemOracle404 "m1").2.2.2 gemErr404 (by decide) (by decide)⟩

/-! ## Lemmas about the per-backend FIFO queue -/

theorem enqueueAll_length (q0 : PromiseSettled) (tasks : List QueueTask) :
    (enqueueAll q0 tasks).length = tasks.length := by
  induction tasks generalizing q0 with
  | nil => rfl
  | cons t rest ih => simp [enqueueAll, ih]

theorem settleTime_runQueuedTask (startAt : Nat) (task : QueueTask) :
    settleTime (runQueuedTask startAt task) = startAt + task.durationMs := by
  unfold runQueuedTask
  cases task.succeeds <;> simp [settleTime]

theorem settleTime_queueAfter (x : PromiseSettled) :
    settleTime (queueAfter x) = settleTime x := rfl

theorem enqueueAll_start_lb (tasks : List QueueTask) :
    ∀ (q0 : PromiseSettled) (k : Nat) (pk : Nat × PromiseSettled),
      (enqueueAll q0 tasks).get? k = some pk → settleTime q0 ≤ pk.1 := by
  induction tasks with
  | nil => intro q0 k pk h; simp [enqueueAll] at h
  | cons t rest ih =>
    intro q0 k pk h
    cases k with
    | zero =>
      rw [enqueueAll, List.get?_cons_zero] at h
      injection h with h
      rw [← h]
    | succ k =>
      rw [enqueueAll, List.get?_cons_succ] at h
      have := ih _ k pk h
      rw [settleTime_queueAfter, settleTime_runQueuedTask] at this
      omega

theorem enqueueAll_chain (tasks : List QueueTask) :
    ∀ (q0 : PromiseSettled) (i : Nat) (pi pj : Nat × PromiseSettled),
      (enqueueAll q0 tasks).get? i = some pi →
      (enqueueAll q0 tasks).get? (i + 1) = some pj →
      pj.1 = settleTime pi.2 := by
  induction tasks with
  | nil => intro q0 i pi pj h; simp [enqueueAll] at h
  | cons t rest ih =>
    intro q0 i pi pj hi hj
    cases i with
    | zero =>
      rw [enqueueAll, List.get?_cons_zero] at hi
      rw [enqueueAll, List.get?_cons_succ] at hj
      injection hi with hi
      cases rest with
      | nil => simp [enqueueAll] at hj
      | cons t2 r2 =>
        rw [enqueueAll, List.get?_cons_zero] at hj
        injection hj with hj
        rw [← hj, ← hi]
        rfl
    | succ i =>
      rw [enqueueAll, List.get?_cons_succ] at hi
      rw [enqueueAll, List.get?_cons_succ] at hj
      exact ih _ i pi pj hi hj

theorem enqueueAll_no_overlap (tasks : List QueueTask) :
    ∀ (q0 : PromiseSettled) (i j : Nat) (pi pj : Nat × PromiseSettled), i < j →
      (enqueueAll q0 tasks).get? i = some pi →
      (enqueueAll q0 tasks).get? j = some pj →
      settleTime pi.2 ≤ pj.1 := by
  induction tasks with
  | nil => intro q0 i j pi pj _ h; simp [enqueueAll] at h
  | cons t rest ih =>
    intro q0 i j pi pj hij hi hj
    cases i with
    | zero =>
      rw [enqueueAll, List.get?_cons_zero] at hi
      injection hi with hi
      obtain ⟨j', rfl⟩ : ∃ j', j = j' + 1 := ⟨j - 1, by omega⟩
      rw [enqueueAll, List.get?_cons_succ] at hj
      have hlb := enqueueAll_start_lb rest _ j' pj hj
      rw [settleTime_queueAfter] at hlb
      rw [← hi]
      exact hlb
    | succ i =>
      obtain ⟨j', rfl⟩ : ∃ j', j = j' + 1 := ⟨j - 1, by omega⟩
      rw [enqueueAll, List.get?_cons_succ] at hi
      rw [enqueueAll, List.get?_cons_succ] at hj
      exact ih _ i j' pi pj (by omega) hi hj

theorem enqueueAll_outcome_independent (tasks : List QueueTask) :
    ∀ (q0 : PromiseSettled),
      (enqueueAll q0 (tasks.map (fun t => { t with succeeds := true }))).map
        (fun p => (p.1, settleTime p.2)) =
      (enqueueAll q0 tasks).map (fun p => (p.1, settleTime p.2)) := by
  induction tasks with
  | nil => intro q0; rfl
  | cons t rest ih =>
    intro q0
    simp only [List.map_cons, enqueueAll]
    have hsettle : settleTime (runQueuedTask (settleTime q0) { t with succeeds := true }) =
        settleTime (runQueuedTask (settleTime q0) t) := by
      rw [settleTime_runQueuedTask, settleTime_runQueuedTask]
    have hqueue : queueAfter (runQueuedTask (settleTime q0) { t with succeeds := true }) =
        queueAfter (runQueuedTask (settleTime q0) t) := by
      unfold queueAfter
      rw [hsettle]
    rw [hsettle, hqueue, ih]

/-- C7: in the promise-chain model of enqueueGeminiWork (each work item is
one Gemini adapter invocation routed through callGemini), every enqueued
call gets a scheduled slot; each call begins exactly when the previous queue
promise settles, so a call begins only after every previously enqueued call
has settled; intervals of distinct calls never overlap (no two in-flight
calls); and the schedule is unchanged if every failure is replaced by a
success, so a failed call never blocks later queued calls. -/
theorem c7_queue_fifo (tasks : List QueueTask) :
    (geminiQueueSchedule tasks).length = tasks.length ∧
    (∀ (i : Nat) (pi pj : Nat × PromiseSettled),
      (geminiQueueSchedule tasks).get? i = some pi →
      (geminiQueueSchedule tasks).get? (i + 1) = some pj →
      pj.1 = settleTime pi.2) ∧
    (∀ (i j : Nat) (pi pj : Nat × PromiseSettled), i < j →
      (geminiQueueSchedule tasks).get? i = some pi →
      (geminiQueueSchedule tasks).get? j = some pj →
      settleTime pi.2 ≤ pj.1) ∧
    (geminiQueueSchedule (tasks.map (fun t => { t with succeeds := true }))).map
        (fun p => (p.1, settleTime p.2)) =
      (geminiQueueSchedule tasks).map (fun p => (p.1, settleTime p.2)) := by
  refine ⟨enqueueAll_length _ tasks, ?_, ?_, ?_⟩
  · intro i pi pj hi hj
    exact enqueueAll_chain tasks _ i pi pj hi hj
  · intro i j pi pj hij hi hj
    exact enqueueAll_no_overlap tasks _ i j pi pj hij hi hj
  · exact enqueueAll_outcome_independent tasks _

/-- Witness for C7 at three concrete work items, the middle one failing. -/
theorem c7_queue_fifo_witness :
    (geminiQueueSchedule [⟨5, true⟩, ⟨7, false⟩, ⟨2, true⟩]).length = 3 ∧
    (∀ (pi pj : Nat × PromiseSettled),
      (geminiQueueSchedule [⟨5, true⟩, ⟨7, false⟩, ⟨2, true⟩]).get? 1 = some pi →
      (geminiQueueSchedule [⟨5, true⟩, ⟨7, false⟩, ⟨2, true⟩]).get? 2 = some pj →
      pj.1 = settleTime pi.2) ∧
    (∀ (pi pj : Nat × PromiseSettled), (0 : Nat) < 2 →
      (geminiQueueSchedule [⟨5, true⟩, ⟨7, false⟩, ⟨2, true⟩]).get? 0 = some pi →
      (geminiQueueSchedule [⟨5, true⟩, ⟨7, false⟩, ⟨2, true⟩]).get? 2 = some pj →
      settleTime pi.2 ≤ pj.1) ∧
    (geminiQueueSchedule (([⟨5, true⟩, ⟨7, false⟩, ⟨2, true⟩] :
        List QueueTask).map (fun t => { t with succeeds := true }))).map
        (fun p => (p.1, settleTime p.2)) =
      (geminiQueueSchedule [⟨5, true⟩, ⟨7, false⟩, ⟨2, true⟩]).map
        (fun p => (p.1, settleTime p.2)) :=
  ⟨(c7_queue_fifo [⟨5, true⟩, ⟨7, false⟩, ⟨2, true⟩]).1,
   fun pi pj hi hj => (c7_queue_fifo [⟨5, true⟩, ⟨7, false⟩, ⟨2, true⟩]).2.1 1 pi pj hi hj,
   fun pi pj h02 hi hj => (c7_queue_fifo [⟨5, true⟩, ⟨7, false⟩, ⟨2, true⟩]).2.2.1 0 2 pi pj h02 hi hj,
   (c7_queue_fifo [⟨5, true⟩, ⟨7, false⟩, ⟨2, true⟩]).2.2.2⟩

end AgentSenate
